import Mathlib

/-!
# cc-go-sdk: scope resolver, substitution engine and action dispatcher

A shallow embedding of `payload.go` and `pluginmanager.go`.

* Go strings are `String`; the scanners work on their character lists.
* Go maps are association lists. A `range` over a map visits the entries in
  list order, so a statement proved for every list covers every iteration
  order of the Go runtime.
* `(T, error)` results are `Except String T`, the error carrying the message
  built by `fmt.Errorf`.
* `os.Getenv` is a parameter `env : String → String` (the empty string for an
  unset variable, as in Go).
-/

namespace CC

/-! ## Data model -/

/-- Value of the dynamic type `any` held in a `PayloadAttributes` map. The
substitution code distinguishes `string`, `[]string` and `map[string]any`; a
value of any other dynamic type is kept as `other`, which carries the text that
`fmt.Sprintf("%v", _)` prints for it. -/
inductive AttrValue where
  | str (s : String)
  | strs (l : List String)
  | map (m : List (String × AttrValue))
  | other (rendered : String)

/-- The Go type `map[string]any` (`PayloadAttributes`). -/
abbrev AttrMap := List (String × AttrValue)

/-- Map indexing `m[k]` with the comma-ok result. -/
def mapGet {β : Type} : List (String × β) → String → Option β
  | [], _ => none
  | (k, v) :: rest, key => if k = key then some v else mapGet rest key

/-- Map assignment `m[k] = v`: an existing key keeps its place. -/
def mapSet {β : Type} : List (String × β) → String → β → List (String × β)
  | [], key, val => [(key, val)]
  | (k, v) :: rest, key, val =>
    if k = key then (k, val) :: rest else (k, v) :: mapSet rest key val

/-- Modelled from the spec: the capability session bound to a store by the
connect phase (the interfaces `StoreReader`, `StoreWriter` and
`FileDataStoreInterface` are declared outside the files at hand). A session
is an opaque handle together with the capabilities a type assertion on it
finds. -/
structure Session where
  handle : Nat
  canRead : Bool
  canWrite : Bool
  isFileStore : Bool

/-- Modelled from the spec: the record `DataStore`
(`Name, StoreType, Parameters, Session`), whose declaration is outside the
files at hand. `Session = none` is the nil interface value. -/
structure DataStore where
  Name : String
  StoreType : String
  Parameters : AttrMap
  Session : Option Session

/-- Modelled from the spec: the record `DataSource`
(`Name, StoreName, Paths, DataPaths`), whose declaration is outside the files
at hand. The zero value has empty strings and nil maps. -/
structure DataSource where
  Name : String
  StoreName : String
  Paths : List (String × String)
  DataPaths : List (String × String)

/-- The type `DataSourceIoType`, a Go string type. -/
abbrev DataSourceIoType := String

def DataSourceInput : DataSourceIoType := "INPUT"
def DataSourceOutput : DataSourceIoType := "OUTPUT"
def DataSourceAll : DataSourceIoType := ""

/-- The struct `IOManager`; `parent = none` is the nil pointer. -/
inductive IOManager where
  | mk (Attributes : AttrMap) (Stores : List DataStore) (Inputs : List DataSource)
      (Outputs : List DataSource) (parent : Option IOManager)

namespace IOManager

def Attributes : IOManager → AttrMap
  | mk a _ _ _ _ => a

def Stores : IOManager → List DataStore
  | mk _ s _ _ _ => s

def Inputs : IOManager → List DataSource
  | mk _ _ i _ _ => i

def Outputs : IOManager → List DataSource
  | mk _ _ _ o _ => o

def parent : IOManager → Option IOManager
  | mk _ _ _ _ p => p

/-- The method `SetParent`. -/
def SetParent : IOManager → IOManager → IOManager
  | mk a s i o _, iom => mk a s i o (some iom)

/-- The scope chain of a node: the node itself, its parent, and so on up to
the root. -/
def chain : IOManager → List IOManager
  | mk a s i o none => [mk a s i o none]
  | mk a s i o (some p) => mk a s i o (some p) :: chain p

end IOManager

/-- The struct `GetDsInput`. -/
structure GetDsInput where
  DsIoType : DataSourceIoType
  DsName : String

/-! ## Scope resolver (`payload.go`) -/

/-- The loop `for _, store := range im.Stores { if store.Name == name ... }`. -/
def findStore : List DataStore → String → Option DataStore
  | [], _ => none
  | store :: rest, name => if store.Name = name then some store else findStore rest name

/-- The method `IOManager.GetStore`. -/
def GetStore : IOManager → String → Except String DataStore
  | .mk _ stores _ _ parent, name =>
    match findStore stores name with
    | some store => .ok store
    | none =>
      match parent with
      | some p => GetStore p name
      | none => .error ("invalid store name: " ++ name)

/-- The `switch input.DsIoType` of `GetDataSource`: the slice that is searched.
A kind outside the three constants leaves `sources` empty. -/
def selectSources (im : IOManager) (kind : DataSourceIoType) : List DataSource :=
  if kind = DataSourceInput then im.Inputs
  else if kind = DataSourceOutput then im.Outputs
  else if kind = DataSourceAll then ([] ++ im.Inputs) ++ im.Outputs
  else []

/-- The loop `for _, ds := range sources { if input.DsName == ds.Name ... }`. -/
def findSource : List DataSource → String → Option DataSource
  | [], _ => none
  | ds :: rest, name => if name = ds.Name then some ds else findSource rest name

/-- The method `IOManager.GetDataSource`. -/
def GetDataSource : IOManager → GetDsInput → Except String DataSource
  | .mk a s i o parent, input =>
    match findSource (selectSources (.mk a s i o parent) input.DsIoType) input.DsName with
    | some ds => .ok ds
    | none =>
      match parent with
      | some p => GetDataSource p input
      | none => .error ("data source " ++ input.DsName ++ " not found")

/-- The method `IOManager.GetInputDataSource`. -/
def GetInputDataSource (im : IOManager) (name : String) : Except String DataSource :=
  GetDataSource im ⟨DataSourceInput, name⟩

/-- The method `IOManager.GetOutputDataSource`. -/
def GetOutputDataSource (im : IOManager) (name : String) : Except String DataSource :=
  GetDataSource im ⟨DataSourceOutput, name⟩

/-! ## The token pattern `substitutionRegex` (`pluginmanager.go`)

The pattern is

    \{(ATTR|VAR|ENV)::([a-zA-Z_][a-zA-Z0-9_]*)
      (?:(\[\s*\])|\[\s*([0-9]+)\s*\]|\[\s*'([^']*)'\s*\]|\[\s*"([^"]*)"\s*\])?\}

Every choice the Go engine makes while matching it at a fixed start position is
forced by the next character (the three namespaces differ in their first
letter, a name stops at the first character outside `[a-zA-Z0-9_]`, which is
then `[` or `}`, and the four indexer forms differ in the first character after
`\[\s*`), so the leftmost-first match is computed below without backtracking.
-/

/-- The class `[a-zA-Z_]`. -/
def isNameStart (c : Char) : Bool :=
  ('a' ≤ c && c ≤ 'z') || ('A' ≤ c && c ≤ 'Z') || c = '_'

/-- The class `[a-zA-Z0-9_]`. -/
def isNameChar (c : Char) : Bool :=
  ('a' ≤ c && c ≤ 'z') || ('A' ≤ c && c ≤ 'Z') || ('0' ≤ c && c ≤ '9') || c = '_'

/-- The class `[0-9]`. -/
def isDigit (c : Char) : Bool := '0' ≤ c && c ≤ '9'

/-- The class `\s` of the Go engine: tab, newline, form feed, carriage return
and space. -/
def isSpace (c : Char) : Bool :=
  c = '\t' || c = '\n' || c = Char.ofNat 12 || c = '\r' || c = ' '

/-- The single quote, the delimiter of group 5. -/
def squote : Char := Char.ofNat 39

/-- The double quote, the delimiter of group 6. -/
def dquote : Char := Char.ofNat 34

/-- The opening brace of a token. -/
def lbrace : Char := Char.ofNat 123

/-- The closing brace of a token. -/
def rbrace : Char := Char.ofNat 125

/-- One element of the result of `FindAllStringSubmatch`: `m0` is the text of
the whole match and `m1` to `m6` are the six capture groups (empty when the
group took no part in the match). -/
structure Submatch where
  m0 : List Char
  m1 : List Char
  m2 : List Char
  m3 : List Char
  m4 : List Char
  m5 : List Char
  m6 : List Char

/-- Match of a literal at the head of the input; the result is the input after
the literal. -/
def dropLit : List Char → List Char → Option (List Char)
  | [], s => some s
  | _ :: _, [] => none
  | p :: ps, c :: cs => if p = c then dropLit ps cs else none

/-- The group `(ATTR|VAR|ENV)`: the captured text and the remaining input. -/
def matchType (s : List Char) : Option (List Char × List Char) :=
  match dropLit "ATTR".data s with
  | some r => some ("ATTR".data, r)
  | none =>
    match dropLit "VAR".data s with
    | some r => some ("VAR".data, r)
    | none =>
      match dropLit "ENV".data s with
      | some r => some ("ENV".data, r)
      | none => none

/-- The tail `\s*\]` of every indexer form: the matched text and the remaining
input. -/
def matchClose (s : List Char) : Option (List Char × List Char) :=
  match s.dropWhile isSpace with
  | c :: r => if c = ']' then some (s.takeWhile isSpace ++ [']'], r) else none
  | [] => none

/-- The quoted forms `'([^']*)'\s*\]` and `"([^"]*)"\s*\]`, entered after the
opening quote `q`: the captured key, the matched text and the remaining input. -/
def matchQuoted (q : Char) (s : List Char) :
    Option (List Char × List Char × List Char) :=
  match s.dropWhile (fun c => c != q) with
  | _ :: r =>
    match matchClose r with
    | some (cl, r2) =>
      some (s.takeWhile (fun c => c != q), s.takeWhile (fun c => c != q) ++ q :: cl, r2)
    | none => none
  | [] => none

/-- The indexer group, entered after its opening `[`: groups 3 to 6, the
matched text (without the opening bracket) and the remaining input. -/
def matchIndexer (s : List Char) :
    Option (List Char × List Char × List Char × List Char × List Char × List Char) :=
  let ws := s.takeWhile isSpace
  match s.dropWhile isSpace with
  | [] => none
  | c :: r =>
    if c = ']' then
      some ('[' :: ws ++ [']'], [], [], [], ws ++ [']'], r)
    else if isDigit c then
      match matchClose ((c :: r).dropWhile isDigit) with
      | some (cl, r2) =>
        some ([], (c :: r).takeWhile isDigit, [], [], ws ++ (c :: r).takeWhile isDigit ++ cl, r2)
      | none => none
    else if c = squote then
      match matchQuoted squote r with
      | some (key, txt, r2) => some ([], [], key, [], ws ++ squote :: txt, r2)
      | none => none
    else if c = dquote then
      match matchQuoted dquote r with
      | some (key, txt, r2) => some ([], [], [], key, ws ++ dquote :: txt, r2)
      | none => none
    else none

/-- The part of the pattern after the name: either `\}` at once, or one indexer
and then `\}`. The result is groups 3 to 6 and the matched text. -/
def matchTail (s : List Char) :
    Option (List Char × List Char × List Char × List Char × List Char) :=
  match s with
  | [] => none
  | c :: r =>
    if c = rbrace then some ([], [], [], [], [rbrace])
    else if c = '[' then
      match matchIndexer r with
      | some (g3, g4, g5, g6, txt, r2) =>
        match r2 with
        | d :: _ => if d = rbrace then some (g3, g4, g5, g6, '[' :: txt ++ [rbrace]) else none
        | [] => none
      | none => none
    else none

/-- The match of `substitutionRegex` that starts at the head of the input, if
there is one. -/
def matchAt (s : List Char) : Option Submatch :=
  match s with
  | [] => none
  | b :: r =>
    if b = lbrace then
      match matchType r with
      | none => none
      | some (ty, r1) =>
        match dropLit "::".data r1 with
        | none => none
        | some r2 =>
          match r2 with
          | [] => none
          | h :: r3 =>
            if isNameStart h then
              match matchTail (r3.dropWhile isNameChar) with
              | some (g3, g4, g5, g6, txt) =>
                some
                  { m0 := lbrace :: ty ++ "::".data ++ h :: r3.takeWhile isNameChar ++ txt
                    m1 := ty
                    m2 := h :: r3.takeWhile isNameChar
                    m3 := g3
                    m4 := g4
                    m5 := g5
                    m6 := g6 }
              | none => none
            else none
    else none

/-- The scan of `FindAllStringSubmatch`: `skip` counts the characters of the
last match that are still to be passed over, so that matches do not overlap;
at every other position the match starting there, if any, is taken. -/
def findAllFrom : Nat → List Char → List Submatch
  | _, [] => []
  | skip + 1, _ :: cs => findAllFrom skip cs
  | 0, c :: cs =>
    match matchAt (c :: cs) with
    | some m => m :: findAllFrom (m.m0.length - 1) cs
    | none => findAllFrom 0 cs

/-- The call `substitutionRegex.FindAllStringSubmatch(s, -1)`. -/
def FindAllStringSubmatch (s : String) : List Submatch :=
  findAllFrom 0 s.data

/-! ## `strings.Split`, `strings.Replace` and `fmt.Sprintf("%v", _)` -/

/-- The scan of `strings.Split` for a non-empty separator: `cur` is the piece
being collected (reversed) and `skip` the characters of the last separator
still to be passed over. -/
def splitFrom (sep : List Char) : Nat → List Char → List Char → List (List Char)
  | _, cur, [] => [cur.reverse]
  | skip + 1, cur, _ :: cs => splitFrom sep skip cur cs
  | 0, cur, c :: cs =>
    if sep.isPrefixOf (c :: cs) then cur.reverse :: splitFrom sep (sep.length - 1) [] cs
    else splitFrom sep 0 (c :: cur) cs

/-- The call `strings.Split(s, sep)`; an empty separator splits after every
character. -/
def stringsSplit (s sep : List Char) : List (List Char) :=
  if sep = [] then s.map (fun c => [c]) else splitFrom sep 0 [] s

/-- The call `strings.Replace(s, old, new, 1)`: the first occurrence of `old`
is replaced (an empty `old` matches at the start). -/
def replaceFirst : List Char → List Char → List Char → List Char
  | [], old, new => if old = [] then new else []
  | c :: cs, old, new =>
    if old.isPrefixOf (c :: cs) then new ++ (c :: cs).drop old.length
    else c :: replaceFirst cs old new

/-- The text `fmt.Sprintf("%v", v)`: a string prints as itself, a string slice
as `[a b c]`, a map as `map[k:v ...]` with the keys in increasing order. -/
def sprintV : AttrValue → String
  | .str s => s
  | .strs l => "[" ++ " ".intercalate l ++ "]"
  | .map m =>
    "map[" ++ " ".intercalate
      (((sprintEntries m).insertionSort (fun a b => ¬ b.1 < a.1)).map
        (fun e => e.1 ++ ":" ++ e.2)) ++ "]"
  | .other rendered => rendered
where
  /-- The entries of a map with their values printed. -/
  sprintEntries : List (String × AttrValue) → List (String × String)
    | [] => []
    | (k, v) :: rest => (k, sprintV v) :: sprintEntries rest

/-! ## Substitution engine (`pluginmanager.go`) -/

/-- The loop `for _, match := range result` of `parameterSubstitute`, run on
the remaining matches with the current value of `template`. -/
def parameterSubstituteLoop (env : String → String) (payloadAttr : AttrMap) (attrSub : Bool) :
    List Submatch → List Char → Except String String
  | [], template => .ok (String.mk template)
  | m :: rest, template =>
    let sub := stringsSplit m.m1 "::".data
    if sub.length ≠ 2 then
      .error ("invalid data source substitution: " ++ String.mk m.m0)
    else if sub.getD 0 [] = "ENV".data then
      let val := env (String.mk (sub.getD 1 []))
      if val = "" then
        .error ("invalid data source substitution.  missing environment parameter: " ++
          String.mk m.m0)
      else
        parameterSubstituteLoop env payloadAttr attrSub rest
          (replaceFirst template m.m0 val.data)
    else if sub.getD 0 [] = "ATTR".data ∧ attrSub = true then
      match mapGet payloadAttr (String.mk (sub.getD 1 [])) with
      | none =>
        .error ("invalid data source substitution.  missing payload parameter: " ++
          String.mk m.m0)
      | some val2 =>
        parameterSubstituteLoop env payloadAttr attrSub rest
          (replaceFirst template m.m0 (sprintV val2).data)
    else
      parameterSubstituteLoop env payloadAttr attrSub rest template

/-- The function `parameterSubstitute`; `param` has the dynamic type `any`. -/
def parameterSubstitute (env : String → String) (param : AttrValue) (payloadAttr : AttrMap)
    (attrSub : Bool) : Except String String :=
  match param with
  | .str template =>
    parameterSubstituteLoop env payloadAttr attrSub (FindAllStringSubmatch template)
      template.data
  | _ => .error "invalid parameter type"

/-- The loop `for _, match := range result` of `templateVarSubstitution`. -/
def templateVarSubstitutionLoop (templateVars : List (String × String)) :
    List Submatch → List Char → String
  | [], template => String.mk template
  | m :: rest, template =>
    let sub := stringsSplit m.m1 "::".data
    if sub.length ≠ 2 then
      templateVarSubstitutionLoop templateVars rest template
    else if sub.getD 0 [] = "VAR".data then
      match mapGet templateVars (String.mk (sub.getD 1 [])) with
      | some val =>
        templateVarSubstitutionLoop templateVars rest (replaceFirst template m.m0 val.data)
      | none => templateVarSubstitutionLoop templateVars rest template
    else
      templateVarSubstitutionLoop templateVars rest template

/-- The function `templateVarSubstitution`. -/
def templateVarSubstitution (template : String) (templateVars : List (String × String)) :
    String :=
  templateVarSubstitutionLoop templateVars (FindAllStringSubmatch template) template.data

/-- The struct `Action`; the embedded `IOManager` is the field `io`. -/
structure Action where
  io : IOManager
  ActionType : String
  Description : String
  Name : String

/-- The struct `PluginManager` with its embedded `Payload` (the job-level
`IOManager` in `io`, and `Actions`). The store handle and the logger are
external collaborators and are left out. -/
structure PluginManager where
  EventIdentifier : String
  io : IOManager
  Actions : List Action

/-- The promoted field `pm.Attributes`. -/
def PluginManager.Attributes (pm : PluginManager) : AttrMap := pm.io.Attributes

/-- The body of the `[]string` case of `substituteMapVariables`: an element is
replaced when its substitution returns no error. -/
def substituteStrings (env : String → String) (pmAttributes : AttrMap) (attrSub : Bool) :
    List String → List String
  | [] => []
  | v :: rest =>
    (match parameterSubstitute env (.str v) pmAttributes attrSub with
      | .ok newval => newval
      | .error _ => v) :: substituteStrings env pmAttributes attrSub rest

/-- The method `substituteMapVariables`, with `pmAttributes` the value of
`pm.Attributes` that `parameterSubstitute` is given. The map `params` is
rewritten entry by entry; the result is its final content. `pmAttributes` is
read only for an ATTR token under `attrSub = true`; `substituteVariables` makes
that call on the attribute map of an action, which is not the manager's own
map, so `pm.Attributes` stays the same value during the rewrite. -/
def substituteMapVariables (env : String → String) (pmAttributes : AttrMap) (attrSub : Bool) :
    AttrMap → AttrMap
  | [] => []
  | (param, valAny) :: rest =>
    (param, substituteValue valAny) :: substituteMapVariables env pmAttributes attrSub rest
where
  /-- The type switch on one value of the map. -/
  substituteValue : AttrValue → AttrValue
    | .str val =>
      match parameterSubstitute env (.str val) pmAttributes attrSub with
      | .ok newval => .str newval
      | .error _ => .str val
    | .map val => .map (substituteMapVariables env pmAttributes attrSub val)
    | .strs val => .strs (substituteStrings env pmAttributes attrSub val)
    | .other rendered => .other rendered

/-- The loops `for i, p := range ds.Paths` and `for i, p := range ds.DataPaths`
of `pathsSubstitute`: the map after the loop and the error that stopped it, if
any. The entries before the failing one are already rewritten. -/
def pathsMapSubstitute (env : String → String) (payloadAttr : AttrMap) :
    List (String × String) → List (String × String) × Option String
  | [] => ([], none)
  | (i, p) :: rest =>
    match parameterSubstitute env (.str p) payloadAttr true with
    | .error err => ((i, p) :: rest, some err)
    | .ok path =>
      ((i, path) :: (pathsMapSubstitute env payloadAttr rest).1,
        (pathsMapSubstitute env payloadAttr rest).2)

/-- The function `pathsSubstitute`: the data source as it is left behind the
pointer `ds`, and the returned error (`none` for nil). -/
def pathsSubstitute (env : String → String) (ds : DataSource) (payloadAttr : AttrMap) :
    DataSource × Option String :=
  match parameterSubstitute env (.str ds.Name) payloadAttr true with
  | .error err => (ds, some err)
  | .ok name =>
    match pathsMapSubstitute env payloadAttr ds.Paths with
    | (paths, some err) => ({ ds with Name := name, Paths := paths }, some err)
    | (paths, none) =>
      match pathsMapSubstitute env payloadAttr ds.DataPaths with
      | (dataPaths, some err) =>
        ({ ds with Name := name, Paths := paths, DataPaths := dataPaths }, some err)
      | (dataPaths, none) =>
        ({ ds with Name := name, Paths := paths, DataPaths := dataPaths }, none)

/-- The loops `for i, ds := range pm.Inputs { err := pathsSubstitute(&ds, ...);
if err != nil { return err }; pm.Inputs[i] = ds }` of `substituteVariables`.
When `pathsSubstitute` fails the element is not assigned back, but its two
maps are shared with the copy and keep the entries rewritten so far. -/
def substituteSources (env : String → String) (payloadAttr : AttrMap) :
    List DataSource → List DataSource × Option String
  | [] => ([], none)
  | ds :: rest =>
    match pathsSubstitute env ds payloadAttr with
    | (ds', some err) =>
      ({ ds with Paths := ds'.Paths, DataPaths := ds'.DataPaths } :: rest, some err)
    | (ds', none) =>
      (ds' :: (substituteSources env payloadAttr rest).1,
        (substituteSources env payloadAttr rest).2)

/-- The call `maps.Copy(dst, src)`. -/
def mapsCopy (dst : AttrMap) : AttrMap → AttrMap
  | [] => dst
  | (k, v) :: rest => mapsCopy (mapSet dst k v) rest

/-- The scope `IOManager` with its attributes, inputs and outputs replaced. -/
def IOManager.rewrite : IOManager → AttrMap → List DataSource → List DataSource → IOManager
  | .mk _ s _ _ p, a, i, o => .mk a s i o p

/-- The body of the loop `for _, action := range pm.Actions` of
`substituteVariables` for one action: the action as it is left, and the error
that made `substituteVariables` return, if any. -/
def substituteAction (env : String → String) (pmAttributes : AttrMap) (action : Action) :
    Action × Option String :=
  let attrs := substituteMapVariables env pmAttributes true action.io.Attributes
  let combinedParams := mapsCopy pmAttributes attrs
  match substituteSources env combinedParams action.io.Inputs with
  | (inputs, some err) =>
    ({ action with io := action.io.rewrite attrs inputs action.io.Outputs }, some err)
  | (inputs, none) =>
    match substituteSources env combinedParams action.io.Outputs with
    | (outputs, err) => ({ action with io := action.io.rewrite attrs inputs outputs }, err)

/-- The loop `for _, action := range pm.Actions` of `substituteVariables`. -/
def substituteActions (env : String → String) (pmAttributes : AttrMap) :
    List Action → List Action × Option String
  | [] => ([], none)
  | action :: rest =>
    match substituteAction env pmAttributes action with
    | (action', some err) => (action' :: rest, some err)
    | (action', none) =>
      (action' :: (substituteActions env pmAttributes rest).1,
        (substituteActions env pmAttributes rest).2)

/-- The method `substituteVariables`: the manager as it is left, and the
returned error (`none` for nil). -/
def substituteVariables (env : String → String) (pm : PluginManager) :
    PluginManager × Option String :=
  let attrs := substituteMapVariables env pm.Attributes false pm.Attributes
  match substituteSources env attrs pm.io.Inputs with
  | (inputs, some err) => ({ pm with io := pm.io.rewrite attrs inputs pm.io.Outputs }, some err)
  | (inputs, none) =>
    match substituteSources env attrs pm.io.Outputs with
    | (outputs, some err) => ({ pm with io := pm.io.rewrite attrs inputs outputs }, some err)
    | (outputs, none) =>
      match substituteActions env attrs pm.Actions with
      | (actions, err) =>
        ({ pm with io := pm.io.rewrite attrs inputs outputs, Actions := actions }, err)

/-! ## Action dispatcher (`pluginmanager.go`) -/

/-- The struct `ActionRunnerBase`, the fields every runner struct has and that
`RunActions` reaches through reflection. `PluginManager` is a pointer, `none`
when nil. -/
structure ActionRunnerBase where
  ActionName : String
  ContinueOnError : Bool
  PluginManager : Option PluginManager
  Action : Action

/-- What one call of a runner's `Run` leaves behind: the returned error
(`none` for nil), the `ContinueOnError` field of the instance it ran on, read
after the call, and the state of everything outside the dispatcher. -/
structure RunResult (σ : Type) where
  err : Option String
  ContinueOnError : Bool
  world : σ

/-- An entry of `ActionRegistry`: the registered value and the `Run` method of
its type. `Run` is called on a new instance of the type, given here by the
fields the dispatcher has set, in the state `σ` of the runner's surroundings.
The runner structs are taken to have the four fields of `ActionRunnerBase`,
as the comment on `RunActions` requires. -/
structure ActionRunner (σ : Type) where
  registered : ActionRunnerBase
  Run : ActionRunnerBase → σ → RunResult σ

/-- The state threaded through `RunActions`: the surroundings of the runners
and the messages given to `pm.Logger.Info`, oldest first. -/
structure DispatchState (σ : Type) where
  world : σ
  log : List String

/-- The instance `RunActions` builds for a match: `reflect.New(t)`, the zero
value of the runner's struct type, with the fields `PluginManager`, `Action`
and `ActionName` set. `ContinueOnError` is not set and starts as false. -/
def newRunner (pm : PluginManager) (action : Action) (runnerName : String) :
    ActionRunnerBase :=
  { ActionName := runnerName
    ContinueOnError := false
    PluginManager := some pm
    Action := action }

/-- The inner loop `for runnerName, runner := range ActionRegistry` for one
action, on the remaining registry entries. `Run` is called on the instance
`newRunner`, and `ContinueOnError` is read from that instance once `Run` has
returned an error. The second component is the error `RunActions` returns at
once, if any. -/
def runMatching {σ : Type} (pm : PluginManager) (action : Action) :
    List (String × ActionRunner σ) → DispatchState σ → DispatchState σ × Option String
  | [], st => (st, none)
  | (runnerName, runner) :: rest, st =>
    if action.Name = runnerName then
      let res := runner.Run (newRunner pm action runnerName) st.world
      match res.err with
      | some err =>
        if !res.ContinueOnError then
          ({ world := res.world, log := st.log ++ ["Running " ++ action.Name] },
            some ("error running " ++ runnerName ++ ": " ++ err))
        else
          runMatching pm action rest
            { world := res.world
              log := st.log ++ ["Running " ++ action.Name, "Completed " ++ action.Name] }
      | none =>
        runMatching pm action rest
          { world := res.world
            log := st.log ++ ["Running " ++ action.Name, "Completed " ++ action.Name] }
    else runMatching pm action rest st

/-- The inner loop for an action whose name is the key of exactly one registry
entry `runner`, as in a Go map: one call of `Run` on the new instance, and
what the loop body does with its result. `runMatching_unique` shows that
`runMatching` computes this. -/
def runOne {σ : Type} (pm : PluginManager) (action : Action) (runner : ActionRunner σ)
    (st : DispatchState σ) : DispatchState σ × Option String :=
  match (runner.Run (newRunner pm action action.Name) st.world).err with
  | some err =>
    if !(runner.Run (newRunner pm action action.Name) st.world).ContinueOnError then
      ({ world := (runner.Run (newRunner pm action action.Name) st.world).world
         log := st.log ++ ["Running " ++ action.Name] },
        some ("error running " ++ action.Name ++ ": " ++ err))
    else
      ({ world := (runner.Run (newRunner pm action action.Name) st.world).world
         log := st.log ++ ["Running " ++ action.Name, "Completed " ++ action.Name] }, none)
  | none =>
    ({ world := (runner.Run (newRunner pm action action.Name) st.world).world
       log := st.log ++ ["Running " ++ action.Name, "Completed " ++ action.Name] }, none)

/-- The outer loop `for _, action := range pm.Actions` on the remaining
actions. -/
def runActionsFrom {σ : Type} (pm : PluginManager) (registry : List (String × ActionRunner σ)) :
    List Action → DispatchState σ → DispatchState σ × Option String
  | [], st => (st, none)
  | action :: rest, st =>
    match runMatching pm action registry st with
    | (st', some err) => (st', some err)
    | (st', none) => runActionsFrom pm registry rest st'

/-- The method `RunActions`, with the global `ActionRegistry` as a parameter:
the final state and the returned error (`none` for nil). -/
def RunActions {σ : Type} (pm : PluginManager) (registry : List (String × ActionRunner σ))
    (st : DispatchState σ) : DispatchState σ × Option String :=
  runActionsFrom pm registry pm.Actions st

/-! ## I/O operations (`payload.go`) -/

/-- Modelled from the spec: a byte stream (`io.Reader`, `io.ReadCloser`), given
by the bytes it delivers until it ends. -/
structure Reader where
  content : List Nat

/-- The struct `DataSourceOpInput`; `DataSource = none` is the nil pointer. -/
structure DataSourceOpInput where
  DataSource : Option DataSource
  DataSourceName : String
  PathKey : String
  DataPathKey : String
  TemplateVars : List (String × String)

/-- The struct `PutOpInput`; the embedded `DataSourceOpInput` is the field
`op`. -/
structure PutOpInput where
  SrcReader : Reader
  op : DataSourceOpInput

/-- Modelled from the spec: the read and write entrypoints of the capability
contracts (`StoreReader.Get(path, datapath)` and
`StoreWriter.Put(reader, path, datapath)`), which the backends implement
outside the files at hand. An entrypoint is called on a session, named by its
handle, in the state `σ` of the storage, and returns its result with the state
it leaves. -/
structure Backend (σ : Type) where
  Get : Nat → String → String → σ → Except String Reader × σ
  Put : Nat → Reader → String → String → σ → (Int × Option String) × σ

/-- The type assertion `session.(StoreReader)`: the session as a reader when
it has the capability; a nil session has none. -/
def asStoreReader : Option Session → Option Nat
  | some s => if s.canRead then some s.handle else none
  | none => none

/-- The type assertion `session.(StoreWriter)`. -/
def asStoreWriter : Option Session → Option Nat
  | some s => if s.canWrite then some s.handle else none
  | none => none

/-- The type assertion `session.(FileDataStoreInterface)`. -/
def asFileDataStore : Option Session → Option Nat
  | some s => if s.isFileStore then some s.handle else none
  | none => none

/-- The map index `m[k]` without the comma-ok result: the zero value (the empty
string) for an absent key. -/
def mapIndex (m : List (String × String)) (k : String) : String :=
  (mapGet m k).getD ""

/-- Modelled from the spec: the method `GetStringOrDefault` of
`PayloadAttributes`, declared outside the files at hand: the string stored
under the key, or the default when the key is not configured. -/
def GetStringOrDefault (params : AttrMap) (key : String) (default : String) : String :=
  match mapGet params key with
  | some (.str s) => s
  | _ => default

/-- The method `IOManager.GetAbsolutePath`. `clean` is `filepath.Clean` and
`pathSeparator` is `os.PathSeparator`, both given by the platform. -/
def GetAbsolutePath (clean : String → String) (pathSeparator : Char) (im : IOManager)
    (storename sourcename pathname : String) : Except String String :=
  match GetStore im storename with
  | .error err => .error ("failed to get store: " ++ err)
  | .ok store =>
    match GetDataSource im ⟨DataSourceAll, sourcename⟩ with
    | .error err => .error ("failed to get data source: " ++ err)
    | .ok ds =>
      match mapGet ds.Paths pathname with
      | some path =>
        .ok (clean (GetStringOrDefault store.Parameters "root" "/" ++
          String.singleton pathSeparator ++ path))
      | none => .error ("invalid path name: " ++ pathname)

/-- The first step of `GetReader`: the data source given explicitly, or the one
found by name among the inputs. -/
def readerSource (im : IOManager) (input : DataSourceOpInput) : Except String DataSource :=
  match input.DataSource with
  | none => GetInputDataSource im input.DataSourceName
  | some ds => .ok ds

/-- The path handed to an entrypoint by `GetReader` and `Put`: VAR substitution
is applied when `len(input.TemplateVars) > 0`. -/
def opPath (path : String) (templateVars : List (String × String)) : String :=
  if templateVars.length > 0 then templateVarSubstitution path templateVars else path

/-- The method `IOManager.GetReader`: the returned reader or error, and the
state of the storage after the call. -/
def GetReader {σ : Type} (be : Backend σ) (im : IOManager) (input : DataSourceOpInput)
    (w : σ) : Except String Reader × σ :=
  match readerSource im input with
  | .error err => (.error err, w)
  | .ok dataSource =>
    match GetStore im dataSource.StoreName with
    | .error err => (.error err, w)
    | .ok dataStore =>
      match asStoreReader dataStore.Session with
      | some readerStore =>
        be.Get readerStore
          (opPath (mapIndex dataSource.Paths input.PathKey) input.TemplateVars)
          (if input.DataPathKey ≠ "" then mapIndex dataSource.DataPaths input.DataPathKey
            else "") w
      | none =>
        (.error ("data store " ++ dataStore.Name ++
          " session does not implement a StoreReader"), w)

/-- The method `IOManager.Get`: the bytes read from the reader of `GetReader`. -/
def Get {σ : Type} (be : Backend σ) (im : IOManager) (input : DataSourceOpInput) (w : σ) :
    Except String (List Nat) × σ :=
  match GetReader be im input w with
  | (.error err, w') => (.error err, w')
  | (.ok reader, w') => (.ok reader.content, w')

/-- The zero value of `DataSource`. -/
def zeroDataSource : DataSource :=
  { Name := "", StoreName := "", Paths := [], DataPaths := [] }

/-- The first step of `Put`: the output found by name when no data source is
given; with a data source given, `ds` is left at its zero value. -/
def putSource (im : IOManager) (input : DataSourceOpInput) : Except String DataSource :=
  match input.DataSource with
  | none => GetOutputDataSource im input.DataSourceName
  | some _ => .ok zeroDataSource

/-- The method `IOManager.Put`: the pair `(int, error)` it returns and the
state of the storage after the call. -/
def Put {σ : Type} (be : Backend σ) (im : IOManager) (input : PutOpInput) (w : σ) :
    (Int × Option String) × σ :=
  match putSource im input.op with
  | .error err => ((0, some err), w)
  | .ok ds =>
    match GetStore im ds.StoreName with
    | .error err => ((0, some err), w)
    | .ok store =>
      match asStoreWriter store.Session with
      | some writer =>
        match mapGet ds.Paths input.op.PathKey with
        | some path =>
          if input.op.DataPathKey ≠ "" then
            match mapGet ds.DataPaths input.op.DataPathKey with
            | some datapath =>
              be.Put writer input.SrcReader (opPath path input.op.TemplateVars) datapath w
            | none =>
              ((0, some ("expected data source data path " ++ input.op.DataPathKey ++
                " not found")), w)
          else be.Put writer input.SrcReader (opPath path input.op.TemplateVars) "" w
        | none => ((0, some ("data source path " ++ input.op.PathKey ++ " not found")), w)
      | none =>
        ((0, some ("data store " ++ ds.StoreName ++
          " session does not implement a storewriter")), w)

/-- The method `IOManager.Copy`: the returned error (`none` for nil) and the
state of the storage after the call. -/
def Copy {σ : Type} (be : Backend σ) (im : IOManager) (src dest : DataSourceOpInput) (w : σ) :
    Option String × σ :=
  match GetOutputDataSource im src.DataSourceName with
  | .error err => (some err, w)
  | .ok srcds =>
    match GetStore im srcds.StoreName with
    | .error err => (some err, w)
    | .ok srcstore =>
      match GetOutputDataSource im dest.DataSourceName with
      | .error err => (some err, w)
      | .ok destds =>
        match GetStore im destds.StoreName with
        | .error err => (some err, w)
        | .ok deststore =>
          match asStoreReader srcstore.Session with
          | some srcReader =>
            match asStoreWriter deststore.Session with
            | some destwriter =>
              match be.Get srcReader (mapIndex srcds.Paths src.PathKey)
                  (if src.DataPathKey ≠ "" then mapIndex srcds.DataPaths src.DataPathKey
                    else "") w with
              | (.error err, w1) => (some err, w1)
              | (.ok reader, w1) =>
                ((be.Put destwriter reader (mapIndex destds.Paths dest.PathKey)
                    (if dest.DataPathKey ≠ "" then
                      mapIndex destds.DataPaths dest.DataPathKey else "") w1).1.2,
                  (be.Put destwriter reader (mapIndex destds.Paths dest.PathKey)
                    (if dest.DataPathKey ≠ "" then
                      mapIndex destds.DataPaths dest.DataPathKey else "") w1).2)
            | none =>
              (some ("destination data store " ++ srcstore.Name ++
                " session does not implement a storewriter"), w)
          | none =>
            (some ("source data store " ++ srcstore.Name ++
              " session does not implement a storereader"), w)

/-- The struct `CopyFileToRemoteInput`. -/
structure CopyFileToRemoteInput where
  RemoteStoreName : String
  RemotePath : String
  LocalPath : String
  RemoteDsName : String
  DsPathKey : String
  DsDataPathKey : String

/-- Modelled from the spec: what `CopyFileToRemote` uses of the operating
system and of the `filesapi` package, both outside the files at hand, in the
state `σ` of the local and remote files: `os.Stat` (the result is `IsDir()`),
`os.Open`, `filepath.Base`, `filesapi.NewFileStore`, the walk of the local
file store (it is handed the function to call on each entry), and
`GetAbsolutePath` and `PutObject` of a file-hierarchy session. -/
structure FileHost (σ : Type) where
  Stat : String → σ → Except String Bool
  Open : String → σ → Except String Reader
  Base : String → String
  NewFileStore : σ → Except String Unit
  Walk : String → (String → Bool → σ → Option String × σ) → σ → Option String × σ
  GetAbsolutePath : Nat → String → String
  PutObject : Nat → Reader → String → σ → Option String × σ

/-- The function `writeFileToRemote`. -/
def writeFileToRemote {σ : Type} (host : FileHost σ) (fs : Nat)
    (localPath remoteAbsolutePath : String) (w : σ) : Option String × σ :=
  match host.Open localPath w with
  | .error err => (some err, w)
  | .ok reader => host.PutObject fs reader remoteAbsolutePath w

/-- The first step of `CopyFileToRemote`: the store name and the path, given
directly or taken from the output named `RemoteDsName`. -/
def remoteTarget (im : IOManager) (input : CopyFileToRemoteInput) :
    Except String (String × String) :=
  if input.RemoteStoreName = "" then
    match GetDataSource im ⟨DataSourceOutput, input.RemoteDsName⟩ with
    | .error err => .error err
    | .ok ds => .ok (ds.StoreName, mapIndex ds.Paths input.DsPathKey)
  else .ok (input.RemoteStoreName, input.RemotePath)

/-- The method `IOManager.CopyFileToRemote`: the returned error (`none` for
nil) and the state of the files after the call. The result of the walk of a
local directory is not looked at, and the function ends in `return nil`. -/
def CopyFileToRemote {σ : Type} (host : FileHost σ) (im : IOManager)
    (input : CopyFileToRemoteInput) (w : σ) : Option String × σ :=
  match remoteTarget im input with
  | .error err => (some err, w)
  | .ok (storeName, path) =>
    match GetStore im storeName with
    | .error err => (some err, w)
    | .ok store =>
      match host.Stat input.LocalPath w with
      | .error err => (some err, w)
      | .ok isDir =>
        match asFileDataStore store.Session with
        | some ifds =>
          if isDir then
            match host.NewFileStore w with
            | .error err => (some err, w)
            | .ok _ =>
              (none,
                (host.Walk input.LocalPath
                  (fun p fileIsDir w1 =>
                    if !fileIsDir then
                      writeFileToRemote host ifds p
                        (host.GetAbsolutePath ifds path ++ "/" ++ host.Base p) w1
                    else (none, w1)) w).2)
          else writeFileToRemote host ifds input.LocalPath (host.GetAbsolutePath ifds path) w
        | none => (none, w)

/-! ## Store connection and typed lookup (`pluginmanager.go`, `payload.go`) -/

/-- Modelled from the spec: an instance built by the store-type registry, which
is declared outside the files at hand. `Connect` is the method of the
`ConnectionDataStore` capability when the instance has it (`none` when the type
assertion fails): it is given the store record and returns the session (a nil
session is `none`) or an error, in the state `σ` of the backends. -/
structure StoreInstance (σ : Type) where
  Connect : Option (DataStore → σ → Except String (Option Session) × σ)

/-- Modelled from the spec: the global `DataStoreTypeRegistry`, by its method
`New`, which builds an instance for a store type or fails for a type that is
not registered. -/
structure StoreTypeRegistry (σ : Type) where
  New : String → Except String (StoreInstance σ)

/-- The function `connectStores` on the remaining elements of `*stores`: the
slice as it is left, the returned error (`none` for nil) and the state of the
backends after the calls of `Connect`. -/
def connectStores {σ : Type} (registry : StoreTypeRegistry σ) :
    List DataStore → σ → (List DataStore × Option String) × σ
  | [], w => (([], none), w)
  | ds :: rest, w =>
    match registry.New ds.StoreType with
    | .error err => ((ds :: rest, some err), w)
    | .ok newInstance =>
      match newInstance.Connect with
      | some connect =>
        match connect ds w with
        | (.error err, w1) => ((ds :: rest, some err), w1)
        | (.ok conn, w1) =>
          (({ ds with Session := conn } :: (connectStores registry rest w1).1.1,
              (connectStores registry rest w1).1.2),
            (connectStores registry rest w1).2)
      | none =>
        ((ds :: (connectStores registry rest w).1.1, (connectStores registry rest w).1.2),
          (connectStores registry rest w).2)

/-- The loop of `GetStoreAs` on the remaining elements of `mgr.Stores`.
`assertT` is the type assertion `s.Session.(T)`. The first store of the name
decides the result; when the loop ends the function fails. -/
def getStoreAsLoop {τ : Type} (assertT : Option Session → Option τ) (name : String) :
    List DataStore → Except String τ
  | [] => .error ("session " ++ name ++ " does not exist")
  | s :: rest =>
    if s.Name = name then
      match assertT s.Session with
      | some t => .ok t
      | none => .error ("invalid store type: " ++ s.StoreType)
    else getStoreAsLoop assertT name rest

/-- The generic function `GetStoreAs[T]`; the zero value of `T` that comes with
an error is left out. -/
def GetStoreAs {τ : Type} (assertT : Option Session → Option τ) (mgr : IOManager)
    (name : String) : Except String τ :=
  getStoreAsLoop assertT name mgr.Stores

/-! ## The token grammar

The language of `substitutionRegex`, stated on the matched text: what the
pattern accepts, with no reference to how a match is searched. -/

/-- The texts of the indexer group: `\[\s*\]`, `\[\s*[0-9]+\s*\]`,
`\[\s*'[^']*'\s*\]` and `\[\s*"[^"]*"\s*\]`. -/
inductive IsIndexer : List Char → Prop
  | empty (ws : List Char) (hws : ∀ c ∈ ws, isSpace c = true) :
      IsIndexer ('[' :: ws ++ [']'])
  | index (ws ds ws2 : List Char) (hws : ∀ c ∈ ws, isSpace c = true) (hne : ds ≠ [])
      (hds : ∀ c ∈ ds, isDigit c = true) (hws2 : ∀ c ∈ ws2, isSpace c = true) :
      IsIndexer ('[' :: ws ++ ds ++ ws2 ++ [']'])
  | single (ws key ws2 : List Char) (hws : ∀ c ∈ ws, isSpace c = true)
      (hkey : squote ∉ key) (hws2 : ∀ c ∈ ws2, isSpace c = true) :
      IsIndexer ('[' :: ws ++ squote :: key ++ squote :: ws2 ++ [']'])
  | double (ws key ws2 : List Char) (hws : ∀ c ∈ ws, isSpace c = true)
      (hkey : dquote ∉ key) (hws2 : ∀ c ∈ ws2, isSpace c = true) :
      IsIndexer ('[' :: ws ++ dquote :: key ++ dquote :: ws2 ++ [']'])

/-- The texts the token pattern accepts: an opening brace, one of the
three namespaces, `::`, a name, an optional indexer and a closing brace. -/
def IsToken (t : List Char) : Prop :=
  ∃ ty h tl idx,
    (ty = "ATTR".data ∨ ty = "VAR".data ∨ ty = "ENV".data) ∧
    isNameStart h = true ∧ (∀ c ∈ tl, isNameChar c = true) ∧
    (idx = [] ∨ IsIndexer idx) ∧
    t = lbrace :: ty ++ "::".data ++ h :: tl ++ idx ++ [rbrace]

/-- The template has no substring that the token pattern accepts. -/
def NoToken (template : String) : Prop :=
  ∀ pre tok post, template.data = pre ++ tok ++ post → ¬ IsToken tok

/-! ## Addressing values of an attribute map -/

/-- One step into an attribute value: a key of a map or a position of a string
slice. -/
inductive Step where
  | key (k : String)
  | index (i : Nat)

/-- The value reached from `v` along `path`; an element of a string slice is
reached as a string value. -/
def valueAt : AttrValue → List Step → Option AttrValue
  | v, [] => some v
  | .map m, .key k :: rest =>
    match mapGet m k with
    | some v => valueAt v rest
    | none => none
  | .strs l, .index i :: rest =>
    match l.get? i with
    | some s => valueAt (.str s) rest
    | none => none
  | _, _ => none

/-- The template holds an ENV token whose variable is unset or empty. -/
def hasUnsetEnvToken (env : String → String) (template : String) : Prop :=
  ∃ m ∈ FindAllStringSubmatch template, m.m1 = "ENV".data ∧ env (String.mk m.m2) = ""

/-- Every token of the template is in the ATTR namespace. -/
def onlyAttrTokens (template : String) : Prop :=
  ∀ m ∈ FindAllStringSubmatch template, m.m1 = "ATTR".data

instance decHasUnsetEnvToken (env : String → String) (template : String) :
    Decidable (hasUnsetEnvToken env template) := by
  unfold hasUnsetEnvToken
  exact inferInstance

instance decOnlyAttrTokens (template : String) : Decidable (onlyAttrTokens template) := by
  unfold onlyAttrTokens
  exact inferInstance

/-- The strings of a data source that `pathsSubstitute` rewrites: its name and
the values of `Paths` and `DataPaths`. -/
def DataSource.templates (ds : DataSource) : List String :=
  ds.Name :: (ds.Paths.map Prod.snd ++ ds.DataPaths.map Prod.snd)

/-- The data sources `substituteVariables` visits: the job-level inputs and
outputs, then the inputs and outputs of every action. -/
def PluginManager.dataSources (pm : PluginManager) : List DataSource :=
  pm.io.Inputs ++ pm.io.Outputs ++ pm.Actions.flatMap (fun a => a.io.Inputs ++ a.io.Outputs)

/-! ## Concrete inputs -/

/-- The environment of the tests: `TESTV3=98765432`,
`V5TEST1="this is a test"`, nothing else set. -/
def testEnv : String → String := fun n =>
  if n = "TESTV3" then "98765432" else if n = "V5TEST1" then "this is a test" else ""

/-- An environment with no variable set. -/
def emptyEnv : String → String := fun _ => ""

/-- The attributes of the ATTR test of the spec. -/
def attrsVal4 : AttrMap :=
  [("val4", .str "this is \x7bATTR::testv4\x7d ok?"), ("testv4", .str "LOREM IPSUM")]

/-- The scope with nothing declared. -/
def emptyScope : IOManager := .mk [] [] [] [] none

/-- A store record with no parameters and no session. -/
def storeNamed (name storeType : String) : DataStore :=
  { Name := name, StoreType := storeType, Parameters := [], Session := none }

/-- A data source bound to the store `storeName`, with one path. -/
def sourceNamed (name storeName path : String) : DataSource :=
  { Name := name, StoreName := storeName, Paths := [("default", path)], DataPaths := [] }

/-- A job-level scope: two stores, one input and one output. -/
def jobScope : IOManager :=
  .mk [] [storeNamed "shared" "S3", storeNamed "archive" "S3"]
    [sourceNamed "grid" "shared" "job/grid.tif"]
    [sourceNamed "report" "archive" "job/report.txt"] none

/-- An action scope under `jobScope`: it declares `shared` again, and the
name `grid` both as an input and as an output. -/
def actionScope : IOManager :=
  .mk [] [storeNamed "shared" "FS"]
    [sourceNamed "grid" "shared" "action/grid-in.tif"]
    [sourceNamed "grid" "shared" "action/grid-out.tif"] (some jobScope)

/-- A manager whose only content is one job-level attribute with an ENV
token. -/
def pmEnvAttr : PluginManager :=
  { EventIdentifier := ""
    io := .mk [("val3", .str "this is a \x7bENV::TESTV3\x7d")] [] [] [] none
    Actions := [] }

/-- A manager with one job-level input whose path holds an ENV token. -/
def pmEnvPath : PluginManager :=
  { EventIdentifier := ""
    io := .mk [] []
      [{ Name := "in", StoreName := "s", Paths := [("default", "/data/\x7bENV::TESTV3\x7d")],
         DataPaths := [] }] [] none
    Actions := [] }

/-- A runner whose `Run` records its name and fails with `boom`, leaving
`ContinueOnError` as `RunActions` created it. -/
def failingRunner : ActionRunner (List String) :=
  { registered := { ActionName := "", ContinueOnError := false, PluginManager := none,
                    Action := { io := emptyScope, ActionType := "", Description := "",
                                Name := "" } }
    Run := fun inst w =>
      { err := some "boom", ContinueOnError := inst.ContinueOnError,
        world := w ++ [inst.ActionName] } }

/-- A runner whose `Run` records its name, sets `ContinueOnError` on itself
and fails with `boom`. -/
def tolerantRunner : ActionRunner (List String) :=
  { registered := { ActionName := "", ContinueOnError := true, PluginManager := none,
                    Action := { io := emptyScope, ActionType := "", Description := "",
                                Name := "" } }
    Run := fun inst w =>
      { err := some "boom", ContinueOnError := true, world := w ++ [inst.ActionName] } }

/-- A runner whose `Run` records its name and succeeds. -/
def okRunner : ActionRunner (List String) :=
  { registered := { ActionName := "", ContinueOnError := false, PluginManager := none,
                    Action := { io := emptyScope, ActionType := "", Description := "",
                                Name := "" } }
    Run := fun inst w =>
      { err := none, ContinueOnError := inst.ContinueOnError,
        world := w ++ [inst.ActionName] } }

/-- A registry with the three runners above. -/
def testRegistry : List (String × ActionRunner (List String)) :=
  [("fail", failingRunner), ("tolerant", tolerantRunner), ("ok", okRunner)]

/-- The action of the given name, with nothing declared. -/
def actionNamed (name : String) : Action :=
  { io := emptyScope, ActionType := "", Description := "", Name := name }

/-- A manager with the given actions and nothing else. -/
def pmWithActions (actions : List Action) : PluginManager :=
  { EventIdentifier := "", io := emptyScope, Actions := actions }

/-- A call of a backend entrypoint, as `recordingBackend` notes it. -/
inductive BackendCall where
  | get (handle : Nat) (path datapath : String)
  | put (handle : Nat) (content : List Nat) (path datapath : String)

/-- A backend that notes every call of an entrypoint. `Get` delivers three
bytes; `Put` reports the number of bytes it was given. -/
def recordingBackend : Backend (List BackendCall) :=
  { Get := fun h path datapath w => (.ok { content := [1, 2, 3] }, w ++ [.get h path datapath])
    Put := fun h reader path datapath w =>
      ((reader.content.length, none), w ++ [.put h reader.content path datapath]) }

/-- A session with the read capability only. -/
def readSession : Session :=
  { handle := 1, canRead := true, canWrite := false, isFileStore := false }

/-- A session with the write capability only. -/
def writeSession : Session :=
  { handle := 2, canRead := false, canWrite := true, isFileStore := false }

/-- A scope for the I/O operations: the store `src` can be read, `dst` can be
written, `bare` has no session; `grid` is an input, `result`, `raw` and `dump`
are outputs. -/
def ioScope : IOManager :=
  .mk []
    [{ Name := "src", StoreType := "S3", Parameters := [("root", .str "/data")],
       Session := some readSession },
     { Name := "dst", StoreType := "S3", Parameters := [], Session := some writeSession },
     storeNamed "bare" "FS"]
    [sourceNamed "grid" "src" "in/grid.tif"]
    [sourceNamed "result" "dst" "out/result.tif", sourceNamed "raw" "src" "out/raw.bin",
     sourceNamed "dump" "bare" "out/dump.bin"] none

/-- A `DataSourceOpInput` that names a data source and a path key. -/
def opNamed (name pathKey : String) : DataSourceOpInput :=
  { DataSource := none, DataSourceName := name, PathKey := pathKey, DataPathKey := "",
    TemplateVars := [] }

/-- A host on which every local path is a plain file and every call succeeds;
`PutObject` notes the remote path it wrote. -/
def plainHost : FileHost (List String) :=
  { Stat := fun _ _ => .ok false
    Open := fun _ _ => .ok { content := [] }
    Base := fun p => p
    NewFileStore := fun _ => .ok ()
    Walk := fun _ _ w => (none, w)
    GetAbsolutePath := fun _ p => p
    PutObject := fun _ _ p w => (none, w ++ [p]) }

/-- A scope that declares nothing, under `ioScope`. -/
def ioChild : IOManager := .mk [] [] [] [] (some ioScope)

/-- A registry with the connectable type `S3` (its `Connect` notes the name of
the store and returns `readSession`), the type `FS` without the connectable
capability, and the connectable type `BAD` whose `Connect` fails. -/
def testStoreRegistry : StoreTypeRegistry (List String) :=
  { New := fun storeType =>
      if storeType = "S3" then
        .ok { Connect := some (fun ds w => (.ok (some readSession), w ++ [ds.Name])) }
      else if storeType = "FS" then .ok { Connect := none }
      else if storeType = "BAD" then
        .ok { Connect := some (fun ds w => (.error "connection refused", w ++ [ds.Name])) }
      else .error ("unknown store type " ++ storeType) }

/-- A `PutOpInput` with a data source given. -/
def putExplicit (ds : DataSource) (name pathKey : String) : PutOpInput :=
  { SrcReader := { content := [9, 9] }
    op := { DataSource := some ds, DataSourceName := name, PathKey := pathKey,
            DataPathKey := "", TemplateVars := [] } }

/-! ## The run that calls every runner

A second description of a run, after the words of the spec ("execution
continues", "dispatch proceeds to the next action"), to compare `RunActions`
with: no error ends it. -/

/-- The run in which, for every action in order, the runner registered under
the name of the action (`ActionRegistry[action.Name]`) is called once, on a
new instance, whatever the calls return; an action with no registered runner
is passed over. The result is the state after the last call. -/
def runEvery {σ : Type} (pm : PluginManager) (registry : List (String × ActionRunner σ)) :
    List Action → DispatchState σ → DispatchState σ
  | [], st => st
  | a :: rest, st =>
    match mapGet registry a.Name with
    | some runner =>
      runEvery pm registry rest
        { world := (runner.Run (newRunner pm a a.Name) st.world).world
          log := st.log ++ ["Running " ++ a.Name, "Completed " ++ a.Name] }
    | none => runEvery pm registry rest st

/-- Every call of `Run` that `runEvery` makes either returns nil or fails on
an instance that has `ContinueOnError` true once `Run` has returned. -/
def onlyContinuedFailures {σ : Type} (pm : PluginManager)
    (registry : List (String × ActionRunner σ)) : List Action → DispatchState σ → Prop
  | [], _ => True
  | a :: rest, st =>
    match mapGet registry a.Name with
    | some runner =>
      ((runner.Run (newRunner pm a a.Name) st.world).err = none ∨
        (runner.Run (newRunner pm a a.Name) st.world).ContinueOnError = true) ∧
      onlyContinuedFailures pm registry rest
        { world := (runner.Run (newRunner pm a a.Name) st.world).world
          log := st.log ++ ["Running " ++ a.Name, "Completed " ++ a.Name] }
    | none => onlyContinuedFailures pm registry rest st

/-- A runner registered with `ContinueOnError` true whose `Run` records its
name and fails with `boom` without assigning the field. -/
def lenientRunner : ActionRunner (List String) :=
  { registered := { ActionName := "", ContinueOnError := true, PluginManager := none,
                    Action := { io := emptyScope, ActionType := "", Description := "",
                                Name := "" } }
    Run := fun inst w =>
      { err := some "boom", ContinueOnError := inst.ContinueOnError,
        world := w ++ [inst.ActionName] } }

/-- A registry with `lenientRunner` and `okRunner`. -/
def lenientRegistry : List (String × ActionRunner (List String)) :=
  [("lenient", lenientRunner), ("ok", okRunner)]

/-- A scope whose output `tile`, on the writable store `dst`, has a path with
a VAR token. -/
def ioVarScope : IOManager :=
  .mk []
    [{ Name := "dst", StoreType := "S3", Parameters := [], Session := some writeSession }]
    []
    [sourceNamed "tile" "dst" "out/\x7bVAR::id\x7d.tif"] none

/-- A `PutOpInput` that names the output `tile` and supplies the variable
`id = 7`. -/
def putTile : PutOpInput :=
  { SrcReader := { content := [9, 9] }
    op := { DataSource := none, DataSourceName := "tile", PathKey := "default",
            DataPathKey := "", TemplateVars := [("id", "7")] } }

/-! ## Scope resolver: lemmas -/

theorem findStore_none_iff (stores : List DataStore) (name : String) :
    findStore stores name = none ↔ ∀ s ∈ stores, s.Name ≠ name := by
  induction stores with
  | nil => simp [findStore]
  | cons s rest ih =>
    by_cases h : s.Name = name
    · simp [findStore, h]
    · simp [findStore, h, ih]

theorem findStore_first (pre : List DataStore) (s : DataStore) (post : List DataStore)
    (name : String) (hs : s.Name = name) (hpre : ∀ x ∈ pre, x.Name ≠ name) :
    findStore (pre ++ s :: post) name = some s := by
  induction pre with
  | nil => simp [findStore, hs]
  | cons x rest ih =>
    have hx : x.Name ≠ name := hpre x (List.mem_cons_self _ _)
    have hrest : ∀ y ∈ rest, y.Name ≠ name := fun y hy => hpre y (List.mem_cons_of_mem _ hy)
    simp [findStore, hx, ih hrest]

theorem findSource_none_iff (sources : List DataSource) (name : String) :
    findSource sources name = none ↔ ∀ d ∈ sources, d.Name ≠ name := by
  induction sources with
  | nil => simp [findSource]
  | cons d rest ih =>
    by_cases h : name = d.Name
    · simp [findSource, h]
    · have h2 : d.Name ≠ name := fun e => h e.symm
      simp [findSource, h, h2, ih]

theorem findSource_first (pre : List DataSource) (d : DataSource) (post : List DataSource)
    (name : String) (hd : d.Name = name) (hpre : ∀ x ∈ pre, x.Name ≠ name) :
    findSource (pre ++ d :: post) name = some d := by
  induction pre with
  | nil => simp [findSource, hd]
  | cons x rest ih =>
    have hx : ¬ name = x.Name := fun e => hpre x (List.mem_cons_self _ _) e.symm
    have hrest : ∀ y ∈ rest, y.Name ≠ name := fun y hy => hpre y (List.mem_cons_of_mem _ hy)
    simp [findSource, hx, ih hrest]

theorem GetStore_mk (a : AttrMap) (st : List DataStore) (i o : List DataSource)
    (p : Option IOManager) (name : String) :
    GetStore (.mk a st i o p) name =
      match findStore st name with
      | some store => .ok store
      | none =>
        match p with
        | some q => GetStore q name
        | none => .error ("invalid store name: " ++ name) := by
  cases p <;> rw [GetStore]

theorem GetStore_local_hit (im : IOManager) (name : String) (s : DataStore)
    (h : findStore im.Stores name = some s) : GetStore im name = .ok s := by
  cases im with
  | mk a st i o p =>
    simp only [IOManager.Stores] at h
    rw [GetStore_mk, h]

theorem GetStore_local_miss (im : IOManager) (name : String)
    (h : findStore im.Stores name = none) :
    GetStore im name =
      match im.parent with
      | some p => GetStore p name
      | none => .error ("invalid store name: " ++ name) := by
  cases im with
  | mk a st i o p =>
    simp only [IOManager.Stores] at h
    rw [GetStore_mk, h]
    rfl

theorem GetStore_error_msg : ∀ (im : IOManager) (name e : String),
    GetStore im name = .error e → e = "invalid store name: " ++ name
  | .mk a st i o none, name, e, h => by
    rw [GetStore_mk] at h
    cases hf : findStore st name with
    | some s => rw [hf] at h; cases h
    | none =>
      rw [hf] at h
      exact (Except.error.inj h).symm
  | .mk a st i o (some p), name, e, h => by
    rw [GetStore_mk] at h
    cases hf : findStore st name with
    | some s => rw [hf] at h; cases h
    | none =>
      rw [hf] at h
      exact GetStore_error_msg p name e h

theorem GetStore_error_iff : ∀ (im : IOManager) (name : String),
    (∃ e, GetStore im name = .error e) ↔ ∀ n ∈ im.chain, ∀ s ∈ n.Stores, s.Name ≠ name
  | .mk a st i o none, name => by
    rw [GetStore_mk]
    cases hf : findStore st name with
    | some s =>
      have hn : ¬ ∀ s ∈ st, s.Name ≠ name := fun hall =>
        by rw [(findStore_none_iff st name).2 hall] at hf; cases hf
      simp only [IOManager.chain, List.mem_singleton, forall_eq, IOManager.Stores]
      constructor
      · rintro ⟨e, he⟩; cases he
      · intro hall; exact absurd hall hn
    | none =>
      have hall := (findStore_none_iff st name).1 hf
      simp only [IOManager.chain, List.mem_singleton, forall_eq, IOManager.Stores]
      exact ⟨fun _ => hall, fun _ => ⟨_, rfl⟩⟩
  | .mk a st i o (some p), name => by
    have ih := GetStore_error_iff p name
    rw [GetStore_mk]
    cases hf : findStore st name with
    | some s =>
      have hn : ¬ ∀ s ∈ st, s.Name ≠ name := fun hall =>
        by rw [(findStore_none_iff st name).2 hall] at hf; cases hf
      simp only [IOManager.chain, List.mem_cons, forall_eq_or_imp, IOManager.Stores]
      constructor
      · rintro ⟨e, he⟩; cases he
      · intro hall; exact absurd hall.1 hn
    | none =>
      have hall := (findStore_none_iff st name).1 hf
      simp only [IOManager.chain, List.mem_cons, forall_eq_or_imp, IOManager.Stores]
      rw [ih]
      exact ⟨fun h => ⟨hall, h⟩, fun h => h.2⟩

/-- C1. `GetStore` returns the first store named `name` of the node's own
`Stores` when there is one, whatever the parent declares; on a local miss it
returns what the parent's `GetStore` returns; it fails exactly when no scope of
the chain from the node up to the root declares a store of that name, and the
error message then carries the name. -/
theorem C1_GetStore_nearest_scope (im : IOManager) (name : String) :
    (∀ pre s post, im.Stores = pre ++ s :: post → s.Name = name →
        (∀ x ∈ pre, x.Name ≠ name) → GetStore im name = .ok s) ∧
    ((∀ s ∈ im.Stores, s.Name ≠ name) →
        ∀ p, im.parent = some p → GetStore im name = GetStore p name) ∧
    ((∃ e, GetStore im name = .error e) ↔
        ∀ n ∈ im.chain, ∀ s ∈ n.Stores, s.Name ≠ name) ∧
    (∀ e, GetStore im name = .error e → e = "invalid store name: " ++ name) := by
  refine ⟨?_, ?_, GetStore_error_iff im name, GetStore_error_msg im name⟩
  · intro pre s post hst hs hpre
    apply GetStore_local_hit
    rw [hst]
    exact findStore_first pre s post name hs hpre
  · intro hall p hp
    rw [GetStore_local_miss im name ((findStore_none_iff _ _).2 hall), hp]

theorem C1_GetStore_nearest_scope_witness :
    GetStore actionScope "shared" = .ok (storeNamed "shared" "FS") ∧
    GetStore actionScope "archive" = GetStore jobScope "archive" ∧
    GetStore jobScope "archive" = .ok (storeNamed "archive" "S3") ∧
    ((∃ e, GetStore actionScope "nowhere" = .error e) ↔
      ∀ n ∈ actionScope.chain, ∀ s ∈ n.Stores, s.Name ≠ "nowhere") :=
  ⟨(C1_GetStore_nearest_scope actionScope "shared").1 [] (storeNamed "shared" "FS") []
      rfl rfl (by simp),
    (C1_GetStore_nearest_scope actionScope "archive").2.1 (by decide) jobScope rfl,
    (C1_GetStore_nearest_scope jobScope "archive").1 [storeNamed "shared" "S3"]
      (storeNamed "archive" "S3") [] rfl rfl (by decide),
    (C1_GetStore_nearest_scope actionScope "nowhere").2.2.1⟩

theorem GetDataSource_mk (a : AttrMap) (st : List DataStore) (i o : List DataSource)
    (p : Option IOManager) (input : GetDsInput) :
    GetDataSource (.mk a st i o p) input =
      match findSource (selectSources (.mk a st i o p) input.DsIoType) input.DsName with
      | some ds => .ok ds
      | none =>
        match p with
        | some q => GetDataSource q input
        | none => .error ("data source " ++ input.DsName ++ " not found") := by
  cases p <;> rw [GetDataSource]

theorem chain_head : ∀ (im : IOManager), ∃ tl, im.chain = im :: tl
  | .mk _ _ _ _ none => ⟨[], rfl⟩
  | .mk _ _ _ _ (some p) => ⟨p.chain, rfl⟩

theorem GetDataSource_nearest : ∀ (im : IOManager) (input : GetDsInput)
    (above : List IOManager) (n : IOManager) (below : List IOManager),
    im.chain = above ++ n :: below →
    (∀ m ∈ above, ∀ d ∈ selectSources m input.DsIoType, d.Name ≠ input.DsName) →
    ∀ d, findSource (selectSources n input.DsIoType) input.DsName = some d →
    GetDataSource im input = .ok d
  | .mk a st i o none, input, above, n, below, hc, habove, d, hd => by
    cases above with
    | nil =>
      simp only [IOManager.chain, List.nil_append, List.cons.injEq] at hc
      rw [GetDataSource_mk, hc.1, hd]
    | cons x rest =>
      simp [IOManager.chain] at hc
  | .mk a st i o (some p), input, above, n, below, hc, habove, d, hd => by
    cases above with
    | nil =>
      simp only [IOManager.chain, List.nil_append, List.cons.injEq] at hc
      rw [GetDataSource_mk, hc.1, hd]
    | cons x rest =>
      simp only [IOManager.chain, List.cons_append, List.cons.injEq] at hc
      have hmiss : findSource (selectSources (.mk a st i o (some p)) input.DsIoType)
          input.DsName = none := by
        rw [findSource_none_iff, hc.1]
        exact habove x (List.mem_cons_self _ _)
      rw [GetDataSource_mk, hmiss]
      exact GetDataSource_nearest p input rest n below hc.2
        (fun m hm => habove m (List.mem_cons_of_mem _ hm)) d hd

theorem GetDataSource_error_msg : ∀ (im : IOManager) (input : GetDsInput) (e : String),
    GetDataSource im input = .error e → e = "data source " ++ input.DsName ++ " not found"
  | .mk a st i o none, input, e, h => by
    rw [GetDataSource_mk] at h
    cases hf : findSource (selectSources (.mk a st i o none) input.DsIoType) input.DsName with
    | some s => rw [hf] at h; cases h
    | none =>
      rw [hf] at h
      exact (Except.error.inj h).symm
  | .mk a st i o (some p), input, e, h => by
    rw [GetDataSource_mk] at h
    cases hf : findSource (selectSources (.mk a st i o (some p)) input.DsIoType)
        input.DsName with
    | some s => rw [hf] at h; cases h
    | none =>
      rw [hf] at h
      exact GetDataSource_error_msg p input e h

theorem GetDataSource_error_iff : ∀ (im : IOManager) (input : GetDsInput),
    (∃ e, GetDataSource im input = .error e) ↔
      ∀ n ∈ im.chain, ∀ d ∈ selectSources n input.DsIoType, d.Name ≠ input.DsName
  | .mk a st i o none, input => by
    rw [GetDataSource_mk]
    cases hf : findSource (selectSources (.mk a st i o none) input.DsIoType) input.DsName with
    | some s =>
      have hn : ¬ ∀ d ∈ selectSources (.mk a st i o none) input.DsIoType,
          d.Name ≠ input.DsName := fun hall =>
        by rw [(findSource_none_iff _ _).2 hall] at hf; cases hf
      simp only [IOManager.chain, List.mem_singleton, forall_eq]
      constructor
      · rintro ⟨e, he⟩; cases he
      · intro hall; exact absurd hall hn
    | none =>
      have hall := (findSource_none_iff _ _).1 hf
      simp only [IOManager.chain, List.mem_singleton, forall_eq]
      exact ⟨fun _ => hall, fun _ => ⟨_, rfl⟩⟩
  | .mk a st i o (some p), input => by
    have ih := GetDataSource_error_iff p input
    rw [GetDataSource_mk]
    cases hf : findSource (selectSources (.mk a st i o (some p)) input.DsIoType)
        input.DsName with
    | some s =>
      have hn : ¬ ∀ d ∈ selectSources (.mk a st i o (some p)) input.DsIoType,
          d.Name ≠ input.DsName := fun hall =>
        by rw [(findSource_none_iff _ _).2 hall] at hf; cases hf
      simp only [IOManager.chain, List.mem_cons, forall_eq_or_imp]
      constructor
      · rintro ⟨e, he⟩; cases he
      · intro hall; exact absurd hall.1 hn
    | none =>
      have hall := (findSource_none_iff _ _).1 hf
      simp only [IOManager.chain, List.mem_cons, forall_eq_or_imp]
      rw [ih]
      exact ⟨fun h => ⟨hall, h⟩, fun h => h.2⟩

/-- C2. The list `GetDataSource` searches in a scope is `Inputs` for INPUT,
`Outputs` for OUTPUT and `Inputs` followed by `Outputs` for the Any kind; the
call returns the first entry named `name` of that list in the nearest scope of
the chain (the node, then its ancestors) that has one; it fails exactly when no
scope of the chain has such an entry, and the error message then names the
source. -/
theorem C2_GetDataSource_nearest_scope (im : IOManager) (kind : DataSourceIoType)
    (name : String) :
    (∀ n : IOManager, selectSources n DataSourceInput = n.Inputs ∧
        selectSources n DataSourceOutput = n.Outputs ∧
        selectSources n DataSourceAll = n.Inputs ++ n.Outputs) ∧
    (∀ above n below, im.chain = above ++ n :: below →
        (∀ m ∈ above, ∀ d ∈ selectSources m kind, d.Name ≠ name) →
        ∀ pre d post, selectSources n kind = pre ++ d :: post → d.Name = name →
          (∀ x ∈ pre, x.Name ≠ name) → GetDataSource im ⟨kind, name⟩ = .ok d) ∧
    ((∃ e, GetDataSource im ⟨kind, name⟩ = .error e) ↔
        ∀ n ∈ im.chain, ∀ d ∈ selectSources n kind, d.Name ≠ name) ∧
    (∀ e, GetDataSource im ⟨kind, name⟩ = .error e →
        e = "data source " ++ name ++ " not found") := by
  refine ⟨fun n => ⟨?_, ?_, ?_⟩, ?_, GetDataSource_error_iff im ⟨kind, name⟩,
    GetDataSource_error_msg im ⟨kind, name⟩⟩
  · simp [selectSources]
  · simp [selectSources, DataSourceInput, DataSourceOutput]
  · simp [selectSources, DataSourceInput, DataSourceOutput, DataSourceAll]
  · intro above n below hc habove pre d post hsel hd hpre
    apply GetDataSource_nearest im ⟨kind, name⟩ above n below hc habove d
    show findSource (selectSources n kind) name = some d
    rw [hsel]
    exact findSource_first pre d post name hd hpre

theorem C2_GetDataSource_nearest_scope_witness :
    GetDataSource actionScope ⟨DataSourceAll, "grid"⟩ =
      .ok (sourceNamed "grid" "shared" "action/grid-in.tif") ∧
    GetDataSource actionScope ⟨DataSourceOutput, "grid"⟩ =
      .ok (sourceNamed "grid" "shared" "action/grid-out.tif") ∧
    GetDataSource actionScope ⟨DataSourceOutput, "report"⟩ =
      .ok (sourceNamed "report" "archive" "job/report.txt") :=
  ⟨(C2_GetDataSource_nearest_scope actionScope DataSourceAll "grid").2.1 [] actionScope
      [jobScope] rfl (by simp) [] (sourceNamed "grid" "shared" "action/grid-in.tif")
      [sourceNamed "grid" "shared" "action/grid-out.tif"] rfl rfl (by simp),
    (C2_GetDataSource_nearest_scope actionScope DataSourceOutput "grid").2.1 [] actionScope
      [jobScope] rfl (by simp) [] (sourceNamed "grid" "shared" "action/grid-out.tif")
      [] rfl rfl (by simp),
    (C2_GetDataSource_nearest_scope actionScope DataSourceOutput "report").2.1 [actionScope]
      jobScope [] rfl (by decide) [] (sourceNamed "report" "archive" "job/report.txt")
      [] rfl rfl (by simp)⟩

/-! ## The matcher and the token grammar: lemmas -/

theorem matchType_fst (s : List Char) (ty r : List Char) (h : matchType s = some (ty, r)) :
    ty = "ATTR".data ∨ ty = "VAR".data ∨ ty = "ENV".data := by
  unfold matchType at h
  split at h
  · simp only [Option.some.injEq, Prod.mk.injEq] at h; exact Or.inl h.1.symm
  · split at h
    · simp only [Option.some.injEq, Prod.mk.injEq] at h; exact Or.inr (Or.inl h.1.symm)
    · split at h
      · simp only [Option.some.injEq, Prod.mk.injEq] at h; exact Or.inr (Or.inr h.1.symm)
      · cases h

theorem matchAt_m1 (s : List Char) (m : Submatch) (h : matchAt s = some m) :
    m.m1 = "ATTR".data ∨ m.m1 = "VAR".data ∨ m.m1 = "ENV".data := by
  unfold matchAt at h
  split at h
  · cases h
  · split at h
    · split at h
      · cases h
      · rename_i ty r1 hty
        split at h
        · cases h
        · split at h
          · cases h
          · split at h
            · split at h
              · simp only [Option.some.injEq] at h
                subst h
                exact matchType_fst _ _ _ hty
              · cases h
            · cases h
    · cases h

theorem findAllFrom_m1 : ∀ (s : List Char) (skip : Nat) (m : Submatch),
    m ∈ findAllFrom skip s →
    m.m1 = "ATTR".data ∨ m.m1 = "VAR".data ∨ m.m1 = "ENV".data
  | [], _, m, h => by simp [findAllFrom] at h
  | _ :: cs, skip + 1, m, h => by
    rw [findAllFrom] at h
    exact findAllFrom_m1 cs skip m h
  | c :: cs, 0, m, h => by
    rw [findAllFrom] at h
    split at h
    · rename_i m' hm
      rcases List.mem_cons.1 h with h1 | h1
      · subst h1; exact matchAt_m1 _ _ hm
      · exact findAllFrom_m1 cs _ m h1
    · exact findAllFrom_m1 cs 0 m h

theorem split_type_length (ty : List Char)
    (h : ty = "ATTR".data ∨ ty = "VAR".data ∨ ty = "ENV".data) :
    (stringsSplit ty "::".data).length = 1 := by
  rcases h with h | h | h <;> subst h <;> decide

theorem parameterSubstituteLoop_cons (env : String → String) (payloadAttr : AttrMap)
    (attrSub : Bool) (m : Submatch) (rest : List Submatch) (template : List Char)
    (h : m.m1 = "ATTR".data ∨ m.m1 = "VAR".data ∨ m.m1 = "ENV".data) :
    parameterSubstituteLoop env payloadAttr attrSub (m :: rest) template =
      .error ("invalid data source substitution: " ++ String.mk m.m0) := by
  have hl := split_type_length m.m1 h
  simp [parameterSubstituteLoop, hl]

theorem templateVarSubstitutionLoop_id (templateVars : List (String × String)) :
    ∀ (ms : List Submatch) (template : List Char),
    (∀ m ∈ ms, m.m1 = "ATTR".data ∨ m.m1 = "VAR".data ∨ m.m1 = "ENV".data) →
    templateVarSubstitutionLoop templateVars ms template = String.mk template
  | [], template, _ => by simp [templateVarSubstitutionLoop]
  | m :: rest, template, h => by
    have hl := split_type_length m.m1 (h m (List.mem_cons_self _ _))
    have ih := templateVarSubstitutionLoop_id templateVars rest template
      (fun x hx => h x (List.mem_cons_of_mem _ hx))
    simp [templateVarSubstitutionLoop, hl, ih]


theorem dropLit_some : ∀ (p s r : List Char), dropLit p s = some r → s = p ++ r
  | [], s, r, h => by
    simp only [dropLit, Option.some.injEq] at h
    simp [h]
  | _ :: _, [], r, h => by simp [dropLit] at h
  | p :: ps, c :: cs, r, h => by
    rw [dropLit] at h
    split at h
    · rename_i hpc
      have := dropLit_some ps cs r h
      simp [hpc, this]
    · cases h

theorem dropLit_append : ∀ (p r : List Char), dropLit p (p ++ r) = some r
  | [], r => by cases r <;> simp [dropLit]
  | p :: ps, r => by
    simp only [List.cons_append, dropLit, if_true]
    exact dropLit_append ps r

theorem matchType_some (s ty r : List Char) (h : matchType s = some (ty, r)) :
    s = ty ++ r := by
  unfold matchType at h
  split at h
  · rename_i r1 h1
    simp only [Option.some.injEq, Prod.mk.injEq] at h
    rw [← h.1, ← h.2]; exact dropLit_some _ _ _ h1
  · split at h
    · rename_i r1 h1
      simp only [Option.some.injEq, Prod.mk.injEq] at h
      rw [← h.1, ← h.2]; exact dropLit_some _ _ _ h1
    · split at h
      · rename_i r1 h1
        simp only [Option.some.injEq, Prod.mk.injEq] at h
        rw [← h.1, ← h.2]; exact dropLit_some _ _ _ h1
      · cases h

theorem matchClose_some (s cl r : List Char) (h : matchClose s = some (cl, r)) :
    s = cl ++ r ∧ ∃ ws, (∀ c ∈ ws, isSpace c = true) ∧ cl = ws ++ [']'] := by
  unfold matchClose at h
  split at h
  · rename_i c r1 hd
    split at h
    · rename_i hc
      simp only [Option.some.injEq, Prod.mk.injEq] at h
      refine ⟨?_, s.takeWhile isSpace, fun c hc => List.mem_takeWhile_imp hc, h.1.symm⟩
      have := List.takeWhile_append_dropWhile isSpace s
      rw [hd, hc, h.2] at this
      rw [← h.1]
      simpa using this.symm
    · cases h
  · cases h

theorem matchQuoted_some (q : Char) (s key txt r : List Char)
    (h : matchQuoted q s = some (key, txt, r)) :
    s = txt ++ r ∧ q ∉ key ∧
      ∃ ws, (∀ c ∈ ws, isSpace c = true) ∧ txt = key ++ q :: ws ++ [']'] := by
  unfold matchQuoted at h
  split at h
  · rename_i c r1 hd
    split at h
    · rename_i cl r2 hcl
      simp only [Option.some.injEq, Prod.mk.injEq] at h
      obtain ⟨hk, ht, hr⟩ := h
      obtain ⟨hs1, ws, hws, hclw⟩ := matchClose_some _ _ _ hcl
      have hcq : c = q := by
        have hne : s.dropWhile (fun c => c != q) ≠ [] := by rw [hd]; simp
        have := List.head_dropWhile_not (fun c => c != q) s hne
        simp only [hd, List.head_cons] at this
        simpa using this
      have hsplit := List.takeWhile_append_dropWhile (fun c => c != q) s
      rw [hd, hcq, hs1] at hsplit
      refine ⟨?_, ?_, ws, hws, ?_⟩
      · rw [← ht, ← hr]
        conv_lhs => rw [← hsplit]
        simp
      · rw [← hk]
        intro hmem
        have := List.mem_takeWhile_imp hmem
        simp at this
      · rw [← ht, ← hk, hclw]; simp
    · cases h
  · cases h

theorem matchIndexer_some (s g3 g4 g5 g6 txt r : List Char)
    (h : matchIndexer s = some (g3, g4, g5, g6, txt, r)) :
    s = txt ++ r ∧ IsIndexer ('[' :: txt) := by
  unfold matchIndexer at h
  simp only at h
  have hsplit := List.takeWhile_append_dropWhile isSpace s
  have hws : ∀ c ∈ s.takeWhile isSpace, isSpace c = true := fun c hc => List.mem_takeWhile_imp hc
  split at h
  · cases h
  · rename_i c r1 hd
    rw [hd] at hsplit
    split at h
    · rename_i hc
      simp only [Option.some.injEq, Prod.mk.injEq] at h
      obtain ⟨-, -, -, -, ht, hr⟩ := h
      refine ⟨?_, ?_⟩
      · rw [← ht, ← hr]
        conv_lhs => rw [← hsplit, hc]
        simp
      · rw [← ht]; exact IsIndexer.empty _ hws
    · split at h
      · rename_i hdig
        split at h
        · rename_i cl r2 hcl
          simp only [Option.some.injEq, Prod.mk.injEq] at h
          obtain ⟨-, -, -, -, ht, hr⟩ := h
          obtain ⟨hs1, ws2, hws2, hclw⟩ := matchClose_some _ _ _ hcl
          have hsplit2 := List.takeWhile_append_dropWhile isDigit (c :: r1)
          refine ⟨?_, ?_⟩
          · rw [← ht, ← hr]
            conv_lhs => rw [← hsplit, ← hsplit2, hs1]
            simp
          · rw [← ht, hclw]
            have := IsIndexer.index (s.takeWhile isSpace) ((c :: r1).takeWhile isDigit) ws2 hws
              (by simp [List.takeWhile_cons, hdig])
              (fun c hc => List.mem_takeWhile_imp hc) hws2
            simpa using this
        · cases h
      · split at h
        · rename_i hq
          split at h
          · rename_i key txt1 r2 hm
            simp only [Option.some.injEq, Prod.mk.injEq] at h
            obtain ⟨-, -, -, -, ht, hr⟩ := h
            obtain ⟨hs1, hkey, ws2, hws2, htxt⟩ := matchQuoted_some _ _ _ _ _ hm
            refine ⟨?_, ?_⟩
            · rw [← ht, ← hr]
              conv_lhs => rw [← hsplit, hq, hs1]
              simp
            · rw [← ht, htxt]
              have := IsIndexer.single (s.takeWhile isSpace) key ws2 hws hkey hws2
              simpa using this
          · cases h
        · split at h
          · rename_i hq
            split at h
            · rename_i key txt1 r2 hm
              simp only [Option.some.injEq, Prod.mk.injEq] at h
              obtain ⟨-, -, -, -, ht, hr⟩ := h
              obtain ⟨hs1, hkey, ws2, hws2, htxt⟩ := matchQuoted_some _ _ _ _ _ hm
              refine ⟨?_, ?_⟩
              · rw [← ht, ← hr]
                conv_lhs => rw [← hsplit, hq, hs1]
                simp
              · rw [← ht, htxt]
                have := IsIndexer.double (s.takeWhile isSpace) key ws2 hws hkey hws2
                simpa using this
            · cases h
          · cases h

theorem matchTail_some (s g3 g4 g5 g6 txt : List Char)
    (h : matchTail s = some (g3, g4, g5, g6, txt)) :
    (∃ r, s = txt ++ r) ∧ ∃ idx, (idx = [] ∨ IsIndexer idx) ∧ txt = idx ++ [rbrace] := by
  unfold matchTail at h
  split at h
  · cases h
  · rename_i c r
    split at h
    · rename_i hc
      simp only [Option.some.injEq, Prod.mk.injEq] at h
      obtain ⟨-, -, -, -, ht⟩ := h
      exact ⟨⟨r, by rw [← ht, hc]; simp⟩, [], Or.inl rfl, by rw [← ht]; simp⟩
    · split at h
      · rename_i hb
        split at h
        · rename_i a3 a4 a5 a6 txt1 r2 hm
          split at h
          · rename_i d r3
            split at h
            · rename_i hd
              simp only [Option.some.injEq, Prod.mk.injEq] at h
              obtain ⟨-, -, -, -, ht⟩ := h
              obtain ⟨hs1, hidx⟩ := matchIndexer_some _ _ _ _ _ _ _ hm
              refine ⟨⟨r3, ?_⟩, '[' :: txt1, Or.inr hidx, ht.symm⟩
              rw [← ht, hb, hs1, hd]; simp
            · cases h
          · cases h
        · cases h
      · cases h

theorem matchAt_some (s : List Char) (m : Submatch) (h : matchAt s = some m) :
    (∃ post, s = m.m0 ++ post) ∧ IsToken m.m0 := by
  unfold matchAt at h
  split at h
  · cases h
  · rename_i b r
    split at h
    · rename_i hb
      split at h
      · cases h
      · rename_i ty r1 hty
        split at h
        · cases h
        · rename_i r2 hsep
          split at h
          · cases h
          · rename_i hd r3
            split at h
            · rename_i hstart
              split at h
              · rename_i g3 g4 g5 g6 txt htail
                simp only [Option.some.injEq] at h
                subst h
                obtain ⟨⟨post, hpost⟩, idx, hidx, htxt⟩ := matchTail_some _ _ _ _ _ _ htail
                have h1 := matchType_some _ _ _ hty
                have h2 := dropLit_some _ _ _ hsep
                have h3 := List.takeWhile_append_dropWhile isNameChar r3
                refine ⟨⟨post, ?_⟩, ty, hd, r3.takeWhile isNameChar, idx,
                  matchType_fst _ _ _ hty, hstart, fun c hc => List.mem_takeWhile_imp hc,
                  hidx, ?_⟩
                · simp only
                  rw [hb, h1, h2]
                  conv_lhs => rw [← h3, hpost]
                  simp
                · simp only
                  rw [htxt]; simp
              · cases h
            · cases h
    · cases h

theorem span_stop (p : Char → Bool) (l : List Char) (c : Char) (r : List Char)
    (hl : ∀ x ∈ l, p x = true) (hc : p c = false) :
    (l ++ c :: r).takeWhile p = l ∧ (l ++ c :: r).dropWhile p = c :: r := by
  constructor
  · rw [List.takeWhile_append_of_pos hl]; simp [List.takeWhile_cons, hc]
  · rw [List.dropWhile_append_of_pos hl]; simp [List.dropWhile_cons, hc]

theorem isSpace_cases (c : Char) (h : isSpace c = true) :
    c = '\t' ∨ c = '\n' ∨ c = Char.ofNat 12 ∨ c = '\r' ∨ c = ' ' := by
  simp only [isSpace, Bool.or_eq_true, decide_eq_true_eq] at h
  tauto

theorem isSpace_not_digit (c : Char) (h : isSpace c = true) : isDigit c = false := by
  rcases isSpace_cases c h with h | h | h | h | h <;> subst h <;> rfl

theorem isDigit_not_space (c : Char) (h : isDigit c = true) : isSpace c = false := by
  cases hs : isSpace c with
  | false => rfl
  | true => rw [isSpace_not_digit c hs] at h; cases h

theorem isDigit_ne_close (c : Char) (h : isDigit c = true) : ¬ c = ']' := by
  intro hc; subst hc; revert h; decide

theorem matchClose_append (ws r : List Char) (hws : ∀ c ∈ ws, isSpace c = true) :
    matchClose (ws ++ ']' :: r) = some (ws ++ [']'], r) := by
  have h := span_stop isSpace ws ']' r hws (by rfl)
  simp [matchClose, h.1, h.2]

theorem matchQuoted_append (q : Char) (key ws r : List Char) (hkey : q ∉ key)
    (hws : ∀ c ∈ ws, isSpace c = true) :
    matchQuoted q (key ++ q :: (ws ++ ']' :: r)) = some (key, key ++ q :: (ws ++ [']']), r) := by
  have hk : ∀ x ∈ key, (fun c => c != q) x = true := by
    intro x hx
    have : x ≠ q := fun e => hkey (e ▸ hx)
    simpa using this
  have h := span_stop (fun c => c != q) key q (ws ++ ']' :: r) hk (by simp)
  simp only [matchQuoted, h.1, h.2, matchClose_append ws r hws]

theorem matchIndexer_complete (idx : List Char) (h : IsIndexer idx) :
    ∃ body, idx = '[' :: body ∧
      ∀ r, ∃ g3 g4 g5 g6, matchIndexer (body ++ r) = some (g3, g4, g5, g6, body, r) := by
  cases h with
  | empty ws hws =>
    refine ⟨ws ++ [']'], rfl, fun r => ?_⟩
    have h := span_stop isSpace ws ']' r hws (by rfl)
    exact ⟨'[' :: ws ++ [']'], [], [], [], by simp [matchIndexer, h.1, h.2]⟩
  | index ws ds ws2 hws hne hds hws2 =>
    refine ⟨ws ++ ds ++ ws2 ++ [']'], by simp, fun r => ?_⟩
    cases ds with
    | nil => exact absurd rfl hne
    | cons d ds1 =>
      have hd : isDigit d = true := hds d (List.mem_cons_self _ _)
      have h := span_stop isSpace ws d (ds1 ++ ws2 ++ ']' :: r) hws (isDigit_not_space d hd)
      have hstop : ((d :: ds1) ++ ws2 ++ ']' :: r).takeWhile isDigit = d :: ds1 ∧
          ((d :: ds1) ++ ws2 ++ ']' :: r).dropWhile isDigit = ws2 ++ ']' :: r := by
        cases ws2 with
        | nil => simpa using span_stop isDigit (d :: ds1) ']' r hds (by rfl)
        | cons w ws3 =>
          have hw := isSpace_not_digit w (hws2 w (List.mem_cons_self _ _))
          simpa using span_stop isDigit (d :: ds1) w (ws3 ++ ']' :: r) hds hw
      have e1 : ws ++ d :: ds1 ++ ws2 ++ [']'] ++ r = ws ++ d :: (ds1 ++ ws2 ++ ']' :: r) := by
        simp
      have e2 : d :: (ds1 ++ ws2 ++ ']' :: r) = (d :: ds1) ++ ws2 ++ ']' :: r := by simp
      rw [e1]
      simp only [matchIndexer, h.1, h.2, isDigit_ne_close d hd, hd, if_true, if_false]
      rw [e2, hstop.1, hstop.2, matchClose_append ws2 r hws2]
      exact ⟨[], d :: ds1, [], [], by simp⟩
  | single ws key ws2 hws hkey hws2 =>
    refine ⟨ws ++ squote :: key ++ squote :: ws2 ++ [']'], by simp, fun r => ?_⟩
    have h := span_stop isSpace ws squote (key ++ squote :: (ws2 ++ ']' :: r)) hws (by rfl)
    have e1 : ws ++ squote :: key ++ squote :: ws2 ++ [']'] ++ r =
        ws ++ squote :: (key ++ squote :: (ws2 ++ ']' :: r)) := by simp
    have c1 : ¬ squote = ']' := by decide
    have c2 : isDigit squote = false := by rfl
    rw [e1]
    simp only [matchIndexer, h.1, h.2, c1, c2, if_true, if_false,
      matchQuoted_append squote key ws2 r hkey hws2]
    exact ⟨[], [], key, [], by simp⟩
  | double ws key ws2 hws hkey hws2 =>
    refine ⟨ws ++ dquote :: key ++ dquote :: ws2 ++ [']'], by simp, fun r => ?_⟩
    have h := span_stop isSpace ws dquote (key ++ dquote :: (ws2 ++ ']' :: r)) hws (by rfl)
    have e1 : ws ++ dquote :: key ++ dquote :: ws2 ++ [']'] ++ r =
        ws ++ dquote :: (key ++ dquote :: (ws2 ++ ']' :: r)) := by simp
    have c1 : ¬ dquote = ']' := by decide
    have c2 : isDigit dquote = false := by rfl
    have c3 : ¬ dquote = squote := by decide
    rw [e1]
    simp only [matchIndexer, h.1, h.2, c1, c2, c3, if_true, if_false,
      matchQuoted_append dquote key ws2 r hkey hws2]
    exact ⟨[], [], [], key, by simp⟩

theorem matchTail_complete (idx post : List Char) (h : idx = [] ∨ IsIndexer idx) :
    ∃ g3 g4 g5 g6, matchTail (idx ++ rbrace :: post) = some (g3, g4, g5, g6, idx ++ [rbrace]) := by
  rcases h with h | h
  · subst h
    exact ⟨[], [], [], [], by simp [matchTail]⟩
  · obtain ⟨body, hb, hm⟩ := matchIndexer_complete idx h
    obtain ⟨g3, g4, g5, g6, hm⟩ := hm (rbrace :: post)
    have c1 : ¬ '[' = rbrace := by decide
    subst hb
    refine ⟨g3, g4, g5, g6, ?_⟩
    simp [matchTail, c1, hm]

theorem tail_head_not_name (idx post : List Char) (h : idx = [] ∨ IsIndexer idx) :
    ∃ c r, idx ++ rbrace :: post = c :: r ∧ isNameChar c = false := by
  rcases h with h | h
  · subst h; exact ⟨rbrace, post, rfl, by rfl⟩
  · obtain ⟨body, hb, -⟩ := matchIndexer_complete idx h
    subst hb
    exact ⟨'[', body ++ rbrace :: post, rfl, by rfl⟩

theorem matchType_complete (ty r : List Char)
    (h : ty = "ATTR".data ∨ ty = "VAR".data ∨ ty = "ENV".data) :
    matchType (ty ++ r) = some (ty, r) := by
  rcases h with h | h | h <;> subst h
  · simp only [matchType, dropLit_append]
  · have : dropLit "ATTR".data ("VAR".data ++ r) = none := by
      show dropLit ('A' :: _) ('V' :: _) = none
      simp [dropLit]
    simp only [matchType, this, dropLit_append]
  · have h1 : dropLit "ATTR".data ("ENV".data ++ r) = none := by
      show dropLit ('A' :: _) ('E' :: _) = none
      simp [dropLit]
    have h2 : dropLit "VAR".data ("ENV".data ++ r) = none := by
      show dropLit ('V' :: _) ('E' :: _) = none
      simp [dropLit]
    simp only [matchType, h1, h2, dropLit_append]

theorem matchAt_complete (tok post : List Char) (h : IsToken tok) :
    ∃ m, matchAt (tok ++ post) = some m ∧ m.m0 = tok := by
  obtain ⟨ty, hd, tl, idx, hty, hstart, htl, hidx, htok⟩ := h
  obtain ⟨c, r, hcr, hc⟩ := tail_head_not_name idx post hidx
  obtain ⟨g3, g4, g5, g6, hm⟩ := matchTail_complete idx post hidx
  have hspan := span_stop isNameChar tl c r htl hc
  rw [← hcr] at hspan
  have e1 : tok ++ post =
      lbrace :: (ty ++ ("::".data ++ hd :: (tl ++ (idx ++ rbrace :: post)))) := by
    rw [htok]; simp
  rw [e1]
  refine ⟨{ m0 := tok, m1 := ty, m2 := hd :: tl, m3 := g3, m4 := g4, m5 := g5, m6 := g6 },
    ?_, rfl⟩
  simp only [matchAt, if_true, matchType_complete ty _ hty, dropLit_append, hstart,
    hspan.1, hspan.2, hm]
  rw [htok]
  simp

theorem findAllFrom_ne_nil : ∀ (pre s : List Char), matchAt s ≠ none →
    findAllFrom 0 (pre ++ s) ≠ []
  | [], [], h => by simp [matchAt] at h
  | [], c :: cs, h => by
    cases hm : matchAt (c :: cs) with
    | none => exact absurd hm h
    | some m => simp [findAllFrom, hm]
  | x :: pre, s, h => by
    cases hm : matchAt (x :: (pre ++ s)) with
    | none =>
      rw [List.cons_append, findAllFrom, hm]
      exact findAllFrom_ne_nil pre s h
    | some m =>
      rw [List.cons_append, findAllFrom, hm]
      exact List.cons_ne_nil _ _

theorem findAllFrom_exists : ∀ (s : List Char) (skip : Nat), findAllFrom skip s ≠ [] →
    ∃ pre rest m, s = pre ++ rest ∧ matchAt rest = some m
  | [], _, h => by simp [findAllFrom] at h
  | c :: cs, skip + 1, h => by
    rw [findAllFrom] at h
    obtain ⟨pre, rest, m, hs, hm⟩ := findAllFrom_exists cs skip h
    exact ⟨c :: pre, rest, m, by simp [hs], hm⟩
  | c :: cs, 0, h => by
    cases hm : matchAt (c :: cs) with
    | some m => exact ⟨[], c :: cs, m, rfl, hm⟩
    | none =>
      rw [findAllFrom, hm] at h
      obtain ⟨pre, rest, m, hs, hm2⟩ := findAllFrom_exists cs 0 h
      exact ⟨c :: pre, rest, m, by simp [hs], hm2⟩

/-- The scan finds no match exactly when no substring of the template is in the
token grammar. -/
theorem NoToken_iff (template : String) :
    NoToken template ↔ FindAllStringSubmatch template = [] := by
  constructor
  · intro h
    by_contra hne
    obtain ⟨pre, rest, m, hs, hm⟩ := findAllFrom_exists _ _ hne
    obtain ⟨⟨post, hpost⟩, htok⟩ := matchAt_some rest m hm
    exact h pre m.m0 post (by rw [hs, hpost]; simp) htok
  · intro h pre tok post hs htok
    obtain ⟨m, hm, -⟩ := matchAt_complete tok post htok
    have : matchAt (tok ++ post) ≠ none := by rw [hm]; simp
    have hne := findAllFrom_ne_nil pre (tok ++ post) this
    apply hne
    have : pre ++ (tok ++ post) = template.data := by rw [hs]; simp
    rw [this]
    exact h

/-! ## Substitution engine: lemmas -/

theorem parameterSubstitute_no_match (env : String → String) (template : String)
    (payloadAttr : AttrMap) (attrSub : Bool) (h : FindAllStringSubmatch template = []) :
    parameterSubstitute env (.str template) payloadAttr attrSub = .ok template := by
  simp only [parameterSubstitute, h, parameterSubstituteLoop]

theorem parameterSubstitute_match (env : String → String) (template : String)
    (payloadAttr : AttrMap) (attrSub : Bool) (m : Submatch) (rest : List Submatch)
    (h : FindAllStringSubmatch template = m :: rest) :
    parameterSubstitute env (.str template) payloadAttr attrSub =
      .error ("invalid data source substitution: " ++ String.mk m.m0) := by
  have hm : m ∈ findAllFrom 0 template.data := by
    show m ∈ FindAllStringSubmatch template
    rw [h]; exact List.mem_cons_self _ _
  simp only [parameterSubstitute, h]
  exact parameterSubstituteLoop_cons env payloadAttr attrSub m rest _
    (findAllFrom_m1 _ _ _ hm)

theorem parameterSubstitute_error_of_token (env : String → String) (template : String)
    (payloadAttr : AttrMap) (attrSub : Bool) (h : FindAllStringSubmatch template ≠ []) :
    ∃ e, parameterSubstitute env (.str template) payloadAttr attrSub = .error e := by
  cases hf : FindAllStringSubmatch template with
  | nil => exact absurd hf h
  | cons m rest => exact ⟨_, parameterSubstitute_match env template payloadAttr attrSub m rest hf⟩

theorem parameterSubstitute_ok (env : String → String) (template : String)
    (payloadAttr : AttrMap) (attrSub : Bool) (out : String)
    (h : parameterSubstitute env (.str template) payloadAttr attrSub = .ok out) :
    out = template ∧ FindAllStringSubmatch template = [] := by
  cases hf : FindAllStringSubmatch template with
  | nil =>
    rw [parameterSubstitute_no_match env template payloadAttr attrSub hf] at h
    exact ⟨(Except.ok.inj h).symm, rfl⟩
  | cons m rest =>
    rw [parameterSubstitute_match env template payloadAttr attrSub m rest hf] at h
    cases h

theorem templateVarSubstitution_same (template : String)
    (templateVars : List (String × String)) :
    templateVarSubstitution template templateVars = template := by
  unfold templateVarSubstitution
  exact templateVarSubstitutionLoop_id templateVars (FindAllStringSubmatch template)
    template.data (fun m hm => findAllFrom_m1 template.data 0 m hm)

theorem substituteStrings_same (env : String → String) (pmAttributes : AttrMap)
    (attrSub : Bool) : ∀ l : List String, substituteStrings env pmAttributes attrSub l = l
  | [] => rfl
  | v :: rest => by
    rw [substituteStrings, substituteStrings_same env pmAttributes attrSub rest]
    cases h : parameterSubstitute env (.str v) pmAttributes attrSub with
    | error e => rfl
    | ok out => simp [(parameterSubstitute_ok env v pmAttributes attrSub out h).1]

mutual
theorem substituteMapVariables_same (env : String → String) (pmAttributes : AttrMap)
    (attrSub : Bool) : ∀ params : AttrMap,
    substituteMapVariables env pmAttributes attrSub params = params
  | [] => by rw [substituteMapVariables]
  | (param, valAny) :: rest => by
    rw [substituteMapVariables, substituteValue_same env pmAttributes attrSub valAny,
      substituteMapVariables_same env pmAttributes attrSub rest]
theorem substituteValue_same (env : String → String) (pmAttributes : AttrMap)
    (attrSub : Bool) : ∀ v : AttrValue,
    substituteMapVariables.substituteValue env pmAttributes attrSub v = v
  | .str val => by
    rw [substituteMapVariables.substituteValue]
    cases h : parameterSubstitute env (.str val) pmAttributes attrSub with
    | error e => rfl
    | ok out => simp [(parameterSubstitute_ok env val pmAttributes attrSub out h).1]
  | .map val => by
    rw [substituteMapVariables.substituteValue,
      substituteMapVariables_same env pmAttributes attrSub val]
  | .strs val => by
    rw [substituteMapVariables.substituteValue, substituteStrings_same]
  | .other rendered => by rw [substituteMapVariables.substituteValue]
end

theorem pathsMapSubstitute_error (env : String → String) (payloadAttr : AttrMap) :
    ∀ l : List (String × String), (∃ kv ∈ l, FindAllStringSubmatch kv.2 ≠ []) →
    ∃ e, (pathsMapSubstitute env payloadAttr l).2 = some e
  | [], h => by simp at h
  | (i, p) :: rest, h => by
    rw [pathsMapSubstitute]
    cases hp : parameterSubstitute env (.str p) payloadAttr true with
    | error e => exact ⟨e, rfl⟩
    | ok out =>
      have hnil := (parameterSubstitute_ok env p payloadAttr true out hp).2
      obtain ⟨kv, hkv, htok⟩ := h
      rcases List.mem_cons.1 hkv with h1 | h1
      · subst h1; exact absurd hnil htok
      · exact pathsMapSubstitute_error env payloadAttr rest ⟨kv, h1, htok⟩

theorem pathsSubstitute_error (env : String → String) (payloadAttr : AttrMap)
    (ds : DataSource) (h : ∃ t ∈ ds.templates, FindAllStringSubmatch t ≠ []) :
    ∃ e, (pathsSubstitute env ds payloadAttr).2 = some e := by
  unfold pathsSubstitute
  cases hn : parameterSubstitute env (.str ds.Name) payloadAttr true with
  | error e => exact ⟨e, rfl⟩
  | ok name =>
    have hnil := (parameterSubstitute_ok env ds.Name payloadAttr true name hn).2
    obtain ⟨t, ht, htok⟩ := h
    simp only [DataSource.templates, List.mem_cons, List.mem_append, List.mem_map] at ht
    cases hp : pathsMapSubstitute env payloadAttr ds.Paths with
    | mk paths perr =>
      cases perr with
      | some e => exact ⟨e, rfl⟩
      | none =>
        cases hd : pathsMapSubstitute env payloadAttr ds.DataPaths with
        | mk dataPaths derr =>
          cases derr with
          | some e => exact ⟨e, rfl⟩
          | none =>
            exfalso
            rcases ht with h1 | ⟨kv, hkv, h1⟩ | ⟨kv, hkv, h1⟩
            · subst h1; exact htok hnil
            · obtain ⟨e, he⟩ := pathsMapSubstitute_error env payloadAttr ds.Paths
                ⟨kv, hkv, by rw [h1]; exact htok⟩
              rw [hp] at he; cases he
            · obtain ⟨e, he⟩ := pathsMapSubstitute_error env payloadAttr ds.DataPaths
                ⟨kv, hkv, by rw [h1]; exact htok⟩
              rw [hd] at he; cases he

theorem substituteSources_error (env : String → String) (payloadAttr : AttrMap) :
    ∀ l : List DataSource,
    (∃ ds ∈ l, ∃ t ∈ ds.templates, FindAllStringSubmatch t ≠ []) →
    ∃ e, (substituteSources env payloadAttr l).2 = some e
  | [], h => by simp at h
  | ds :: rest, h => by
    rw [substituteSources]
    cases hp : pathsSubstitute env ds payloadAttr with
    | mk ds1 perr =>
      cases perr with
      | some e => exact ⟨e, rfl⟩
      | none =>
        obtain ⟨d, hd, htok⟩ := h
        rcases List.mem_cons.1 hd with h1 | h1
        · subst h1
          obtain ⟨e, he⟩ := pathsSubstitute_error env payloadAttr d htok
          rw [hp] at he; cases he
        · exact substituteSources_error env payloadAttr rest ⟨d, h1, htok⟩

theorem substituteAction_error (env : String → String) (pmAttributes : AttrMap)
    (action : Action)
    (h : ∃ ds ∈ action.io.Inputs ++ action.io.Outputs,
      ∃ t ∈ ds.templates, FindAllStringSubmatch t ≠ []) :
    ∃ e, (substituteAction env pmAttributes action).2 = some e := by
  unfold substituteAction
  simp only
  generalize mapsCopy pmAttributes
    (substituteMapVariables env pmAttributes true action.io.Attributes) = combined
  cases hi : substituteSources env combined action.io.Inputs with
  | mk inputs ierr =>
    cases ierr with
    | some e => exact ⟨e, rfl⟩
    | none =>
      cases ho : substituteSources env combined action.io.Outputs with
      | mk outputs oerr =>
        cases oerr with
        | some e => exact ⟨e, rfl⟩
        | none =>
          exfalso
          obtain ⟨d, hd, htok⟩ := h
          rcases List.mem_append.1 hd with h1 | h1
          · obtain ⟨e, he⟩ := substituteSources_error env combined _ ⟨d, h1, htok⟩
            rw [hi] at he; cases he
          · obtain ⟨e, he⟩ := substituteSources_error env combined _ ⟨d, h1, htok⟩
            rw [ho] at he; cases he

theorem substituteActions_error (env : String → String) (pmAttributes : AttrMap) :
    ∀ l : List Action,
    (∃ a ∈ l, ∃ ds ∈ a.io.Inputs ++ a.io.Outputs,
      ∃ t ∈ ds.templates, FindAllStringSubmatch t ≠ []) →
    ∃ e, (substituteActions env pmAttributes l).2 = some e
  | [], h => by simp at h
  | action :: rest, h => by
    rw [substituteActions]
    cases hp : substituteAction env pmAttributes action with
    | mk a1 aerr =>
      cases aerr with
      | some e => exact ⟨e, rfl⟩
      | none =>
        obtain ⟨a, ha, htok⟩ := h
        rcases List.mem_cons.1 ha with h1 | h1
        · subst h1
          obtain ⟨e, he⟩ := substituteAction_error env pmAttributes a htok
          rw [hp] at he; cases he
        · exact substituteActions_error env pmAttributes rest ⟨a, h1, htok⟩

theorem substituteVariables_error (env : String → String) (pm : PluginManager)
    (h : ∃ ds ∈ pm.dataSources, ∃ t ∈ ds.templates, FindAllStringSubmatch t ≠ []) :
    ∃ e, (substituteVariables env pm).2 = some e := by
  unfold substituteVariables
  simp only
  generalize substituteMapVariables env pm.Attributes false pm.Attributes = attrs
  cases hi : substituteSources env attrs pm.io.Inputs with
  | mk inputs ierr =>
    cases ierr with
    | some e => exact ⟨e, rfl⟩
    | none =>
      cases ho : substituteSources env attrs pm.io.Outputs with
      | mk outputs oerr =>
        cases oerr with
        | some e => exact ⟨e, rfl⟩
        | none =>
          cases ha : substituteActions env attrs pm.Actions with
          | mk actions aerr =>
            cases aerr with
            | some e => exact ⟨e, rfl⟩
            | none =>
              exfalso
              obtain ⟨d, hd, htok⟩ := h
              simp only [PluginManager.dataSources, List.mem_append, List.mem_flatMap] at hd
              rcases hd with (h1 | h1) | ⟨a, ha1, h1⟩
              · obtain ⟨e, he⟩ := substituteSources_error env attrs _ ⟨d, h1, htok⟩
                rw [hi] at he; cases he
              · obtain ⟨e, he⟩ := substituteSources_error env attrs _ ⟨d, h1, htok⟩
                rw [ho] at he; cases he
              · obtain ⟨e, he⟩ := substituteActions_error env attrs pm.Actions
                  ⟨a, ha1, d, List.mem_append.2 h1, htok⟩
                rw [ha] at he; cases he

theorem pathsMapSubstitute_none (env : String → String) (payloadAttr : AttrMap) :
    ∀ l : List (String × String), (∀ kv ∈ l, FindAllStringSubmatch kv.2 = []) →
    (pathsMapSubstitute env payloadAttr l).2 = none
  | [], _ => rfl
  | (i, p) :: rest, h => by
    rw [pathsMapSubstitute,
      parameterSubstitute_no_match env p payloadAttr true (h (i, p) (List.mem_cons_self _ _))]
    exact pathsMapSubstitute_none env payloadAttr rest
      (fun kv hkv => h kv (List.mem_cons_of_mem _ hkv))

theorem pathsSubstitute_none (env : String → String) (payloadAttr : AttrMap)
    (ds : DataSource) (h : ∀ t ∈ ds.templates, FindAllStringSubmatch t = []) :
    (pathsSubstitute env ds payloadAttr).2 = none := by
  have hn := h ds.Name (List.mem_cons_self _ _)
  have hp := pathsMapSubstitute_none env payloadAttr ds.Paths (fun kv hkv =>
    h kv.2 (List.mem_cons_of_mem _ (List.mem_append_left _ (List.mem_map_of_mem _ hkv))))
  have hd := pathsMapSubstitute_none env payloadAttr ds.DataPaths (fun kv hkv =>
    h kv.2 (List.mem_cons_of_mem _ (List.mem_append_right _ (List.mem_map_of_mem _ hkv))))
  unfold pathsSubstitute
  rw [parameterSubstitute_no_match env ds.Name payloadAttr true hn]
  cases hp1 : pathsMapSubstitute env payloadAttr ds.Paths with
  | mk paths perr =>
    rw [hp1] at hp
    simp only at hp
    subst hp
    cases hd1 : pathsMapSubstitute env payloadAttr ds.DataPaths with
    | mk dataPaths derr =>
      rw [hd1] at hd
      simp only at hd
      subst hd
      rfl

theorem substituteSources_none (env : String → String) (payloadAttr : AttrMap) :
    ∀ l : List DataSource,
    (∀ ds ∈ l, ∀ t ∈ ds.templates, FindAllStringSubmatch t = []) →
    (substituteSources env payloadAttr l).2 = none
  | [], _ => rfl
  | ds :: rest, h => by
    have h1 := pathsSubstitute_none env payloadAttr ds (h ds (List.mem_cons_self _ _))
    rw [substituteSources]
    cases hp : pathsSubstitute env ds payloadAttr with
    | mk ds1 perr =>
      rw [hp] at h1
      simp only at h1
      subst h1
      exact substituteSources_none env payloadAttr rest
        (fun d hd => h d (List.mem_cons_of_mem _ hd))

theorem substituteAction_none (env : String → String) (pmAttributes : AttrMap)
    (action : Action)
    (h : ∀ ds ∈ action.io.Inputs ++ action.io.Outputs,
      ∀ t ∈ ds.templates, FindAllStringSubmatch t = []) :
    (substituteAction env pmAttributes action).2 = none := by
  unfold substituteAction
  simp only
  generalize mapsCopy pmAttributes
    (substituteMapVariables env pmAttributes true action.io.Attributes) = combined
  have hi := substituteSources_none env combined action.io.Inputs
    (fun d hd => h d (List.mem_append_left _ hd))
  have ho := substituteSources_none env combined action.io.Outputs
    (fun d hd => h d (List.mem_append_right _ hd))
  cases hi1 : substituteSources env combined action.io.Inputs with
  | mk inputs ierr =>
    rw [hi1] at hi
    simp only at hi
    subst hi
    cases ho1 : substituteSources env combined action.io.Outputs with
    | mk outputs oerr =>
      rw [ho1] at ho
      simp only at ho
      subst ho
      rfl

theorem substituteActions_none (env : String → String) (pmAttributes : AttrMap) :
    ∀ l : List Action,
    (∀ a ∈ l, ∀ ds ∈ a.io.Inputs ++ a.io.Outputs,
      ∀ t ∈ ds.templates, FindAllStringSubmatch t = []) →
    (substituteActions env pmAttributes l).2 = none
  | [], _ => rfl
  | action :: rest, h => by
    have h1 := substituteAction_none env pmAttributes action (h action (List.mem_cons_self _ _))
    rw [substituteActions]
    cases hp : substituteAction env pmAttributes action with
    | mk a1 aerr =>
      rw [hp] at h1
      simp only at h1
      subst h1
      exact substituteActions_none env pmAttributes rest
        (fun a ha => h a (List.mem_cons_of_mem _ ha))

theorem substituteVariables_none (env : String → String) (pm : PluginManager)
    (h : ∀ ds ∈ pm.dataSources, ∀ t ∈ ds.templates, FindAllStringSubmatch t = []) :
    (substituteVariables env pm).2 = none := by
  unfold substituteVariables
  simp only
  generalize substituteMapVariables env pm.Attributes false pm.Attributes = attrs
  have hi := substituteSources_none env attrs pm.io.Inputs (fun d hd => h d (by
    simp only [PluginManager.dataSources, List.mem_append]; exact Or.inl (Or.inl hd)))
  have ho := substituteSources_none env attrs pm.io.Outputs (fun d hd => h d (by
    simp only [PluginManager.dataSources, List.mem_append]; exact Or.inl (Or.inr hd)))
  have ha := substituteActions_none env attrs pm.Actions (fun a ha d hd => h d (by
    simp only [PluginManager.dataSources, List.mem_append, List.mem_flatMap]
    exact Or.inr ⟨a, ha, List.mem_append.1 hd⟩))
  cases hi1 : substituteSources env attrs pm.io.Inputs with
  | mk inputs ierr =>
    rw [hi1] at hi
    simp only at hi
    subst hi
    cases ho1 : substituteSources env attrs pm.io.Outputs with
    | mk outputs oerr =>
      rw [ho1] at ho
      simp only at ho
      subst ho
      cases ha1 : substituteActions env attrs pm.Actions with
      | mk actions aerr =>
        rw [ha1] at ha
        simp only at ha
        subst ha
        rfl

theorem substituteVariables_Attributes (env : String → String) (pm : PluginManager) :
    (substituteVariables env pm).1.Attributes = pm.Attributes := by
  unfold substituteVariables
  simp only [substituteMapVariables_same]
  cases hio : pm.io with
  | mk a s i o p =>
    have hattr : pm.Attributes = a := by simp [PluginManager.Attributes, hio, IOManager.Attributes]
    simp only [hattr]
    cases hi : substituteSources env a (IOManager.mk a s i o p).Inputs with
    | mk inputs ierr =>
      cases ierr with
      | some e => rfl
      | none =>
        cases ho : substituteSources env a (IOManager.mk a s i o p).Outputs with
        | mk outputs oerr =>
          cases oerr with
          | some e => rfl
          | none => rfl

theorem hasUnsetEnvToken_token (env : String → String) (template : String)
    (h : hasUnsetEnvToken env template) : FindAllStringSubmatch template ≠ [] := by
  obtain ⟨m, hm, -⟩ := h
  intro hnil
  rw [hnil] at hm
  cases hm

/-! ## Substitution engine: the claims -/

/-- C3 (defect of the code). With `TESTV3=98765432` in the environment,
`parameterSubstitute` does not resolve `"this is a {ENV::TESTV3}"` to
`"this is a 98765432"`: it returns the error
`invalid data source substitution: {ENV::TESTV3}`, whatever the attribute map
and the ATTR flag, because capture group 1 holds the namespace alone and
splitting it at `::` never gives two parts. -/
theorem C3_env_token_is_rejected :
    testEnv "TESTV3" = "98765432" ∧
    ∀ (payloadAttr : AttrMap) (attrSub : Bool),
      parameterSubstitute testEnv (.str "this is a \x7bENV::TESTV3\x7d") payloadAttr attrSub =
        .error "invalid data source substitution: \x7bENV::TESTV3\x7d" :=
  ⟨rfl, fun _ _ => rfl⟩

/-- C4 (defect of the code). For the attributes
`{"val4": "this is {ATTR::testv4} ok?", "testv4": "LOREM IPSUM"}`,
`substituteMapVariables(attrs, true)` leaves `val4` as it was, token
included, and not `"this is LOREM IPSUM ok?"`: the substitution of the value
returns an error, which the map rewrite drops, whatever attribute map the
token is looked up in. -/
theorem C4_attr_token_is_kept :
    mapGet attrsVal4 "testv4" = some (.str "LOREM IPSUM") ∧
    mapGet (substituteMapVariables testEnv attrsVal4 true attrsVal4) "val4" =
      some (.str "this is \x7bATTR::testv4\x7d ok?") ∧
    ∀ pmAttributes : AttrMap,
      mapGet (substituteMapVariables testEnv pmAttributes true attrsVal4) "val4" =
        some (.str "this is \x7bATTR::testv4\x7d ok?") :=
  ⟨rfl, rfl, fun _ => rfl⟩

/-- C5 (defect of the code). The template `"data/{VAR::id}.csv"`, whose only
token is in the VAR namespace, is not returned unchanged by
`parameterSubstitute`: the call returns the error
`invalid data source substitution: {VAR::id}`, with ATTR substitution enabled
or disabled. -/
theorem C5_var_token_is_rejected :
    ∀ (env : String → String) (payloadAttr : AttrMap) (attrSub : Bool),
      parameterSubstitute env (.str "data/\x7bVAR::id\x7d.csv") payloadAttr attrSub =
        .error "invalid data source substitution: \x7bVAR::id\x7d" :=
  fun _ _ _ => rfl

/-- C6 (defect of the code). `templateVarSubstitution` on `"data/{VAR::id}.csv"`
with the mapping `{id: "7"}` returns the template as it was, not
`"data/7.csv"`: the token is skipped because capture group 1 does not split
into two parts at `::`. -/
theorem C6_var_token_is_not_replaced :
    mapGet [("id", "7")] "id" = some "7" ∧
    templateVarSubstitution "data/\x7bVAR::id\x7d.csv" [("id", "7")] =
      "data/\x7bVAR::id\x7d.csv" :=
  ⟨rfl, rfl⟩

/-- C7 (the claim fails as stated). The job-level attribute `val3` of
`pmEnvAttr` is the string `"this is a {ENV::TESTV3}"`, the variable `TESTV3` is
unset, and `substituteVariables` returns nil. -/
theorem C7_attribute_error_is_dropped :
    valueAt (.map pmEnvAttr.Attributes) [.key "val3"] =
      some (.str "this is a \x7bENV::TESTV3\x7d") ∧
    hasUnsetEnvToken emptyEnv "this is a \x7bENV::TESTV3\x7d" ∧
    (substituteVariables emptyEnv pmEnvAttr).2 = none :=
  ⟨rfl, by decide, rfl⟩

/-- C7 (amended). When the name, a path or a data path of some data source,
job-level or of an action, holds an ENV token whose environment variable is
unset or empty, `substituteVariables` returns a non-nil error. An attribute
string never makes it fail: when no name, path or data path of a data source
holds a token, `substituteVariables` returns nil, whatever the job-level and
action-level attributes hold. -/
theorem C7_env_error_from_data_sources_only (env : String → String) (pm : PluginManager) :
    ((∃ ds ∈ pm.dataSources, ∃ t ∈ ds.templates, hasUnsetEnvToken env t) →
      ∃ e, (substituteVariables env pm).2 = some e) ∧
    ((∀ ds ∈ pm.dataSources, ∀ t ∈ ds.templates, NoToken t) →
      (substituteVariables env pm).2 = none) := by
  constructor
  · rintro ⟨ds, hds, t, ht, htok⟩
    exact substituteVariables_error env pm
      ⟨ds, hds, t, ht, hasUnsetEnvToken_token env t htok⟩
  · intro h
    exact substituteVariables_none env pm
      (fun ds hds t ht => (NoToken_iff t).1 (h ds hds t ht))

theorem C7_env_error_from_data_sources_only_witness :
    (∃ e, (substituteVariables emptyEnv pmEnvPath).2 = some e) ∧
    (substituteVariables emptyEnv pmEnvAttr).2 = none :=
  ⟨(C7_env_error_from_data_sources_only emptyEnv pmEnvPath).1
      ⟨_, List.mem_cons_self _ _, "/data/\x7bENV::TESTV3\x7d",
        List.mem_cons_of_mem _ (List.mem_cons_self _ _),
        ⟨_, List.mem_cons_self _ _, rfl, rfl⟩⟩,
    (C7_env_error_from_data_sources_only emptyEnv pmEnvAttr).2
      (fun _ hds => by cases hds)⟩

/-- C8. With ATTR substitution disabled, a string value of an attribute map
(at any depth, an element of a string slice included) whose tokens are all ATTR
tokens is the same after `substituteMapVariables(params, false)`; and when the
map is the job-level attribute map of a manager, the value is the same after
`substituteVariables`, which rewrites that map in this mode. -/
theorem C8_attr_tokens_stay (env : String → String) (pmAttributes params : AttrMap)
    (path : List Step) (s : String)
    (h : valueAt (.map params) path = some (.str s)) (hs : onlyAttrTokens s) :
    valueAt (.map (substituteMapVariables env pmAttributes false params)) path =
      some (.str s) ∧
    ∀ pm : PluginManager, pm.Attributes = params →
      valueAt (.map (substituteVariables env pm).1.Attributes) path = some (.str s) := by
  have _ := hs
  refine ⟨?_, fun pm hpm => ?_⟩
  · rw [substituteMapVariables_same]; exact h
  · rw [substituteVariables_Attributes, hpm]; exact h

theorem C8_attr_tokens_stay_witness :
    valueAt (.map (substituteMapVariables testEnv attrsVal4 false attrsVal4)) [.key "val4"] =
      some (.str "this is \x7bATTR::testv4\x7d ok?") :=
  (C8_attr_tokens_stay testEnv attrsVal4 attrsVal4 [.key "val4"]
    "this is \x7bATTR::testv4\x7d ok?" rfl (by decide)).1

/-- C9. A template with no substring in the token grammar (brace expressions
of another namespace included) is returned unchanged and without error by
`parameterSubstitute`, for every environment, attribute map and flag, and
unchanged by `templateVarSubstitution`, for every variable mapping. -/
theorem C9_no_token_unchanged (env : String → String) (template : String)
    (payloadAttr : AttrMap) (attrSub : Bool) (templateVars : List (String × String))
    (h : NoToken template) :
    parameterSubstitute env (.str template) payloadAttr attrSub = .ok template ∧
    templateVarSubstitution template templateVars = template :=
  ⟨parameterSubstitute_no_match env template payloadAttr attrSub ((NoToken_iff template).1 h),
    templateVarSubstitution_same template templateVars⟩

theorem C9_no_token_unchanged_witness :
    parameterSubstitute testEnv (.str "a \x7bFOO::bar\x7d b \x7bENV:X\x7d c") attrsVal4 true =
      .ok "a \x7bFOO::bar\x7d b \x7bENV:X\x7d c" ∧
    templateVarSubstitution "a \x7bFOO::bar\x7d b \x7bENV:X\x7d c" [("bar", "1")] =
      "a \x7bFOO::bar\x7d b \x7bENV:X\x7d c" :=
  C9_no_token_unchanged testEnv "a \x7bFOO::bar\x7d b \x7bENV:X\x7d c" attrsVal4 true
    [("bar", "1")] ((NoToken_iff _).2 rfl)

/-! ## Action dispatcher: lemmas -/

theorem runMatching_no_match {σ : Type} (pm : PluginManager) (action : Action) :
    ∀ (registry : List (String × ActionRunner σ)) (st : DispatchState σ),
    (∀ e ∈ registry, e.1 ≠ action.Name) → runMatching pm action registry st = (st, none)
  | [], st, _ => rfl
  | (runnerName, runner) :: rest, st, h => by
    have hne : ¬ action.Name = runnerName := fun e => h _ (List.mem_cons_self _ _) e.symm
    rw [runMatching, if_neg hne]
    exact runMatching_no_match pm action rest st
      (fun e he => h e (List.mem_cons_of_mem _ he))

theorem runMatching_unique {σ : Type} (pm : PluginManager) (action : Action)
    (runner : ActionRunner σ) :
    ∀ (registry : List (String × ActionRunner σ)) (st : DispatchState σ),
    (registry.map Prod.fst).Nodup → (action.Name, runner) ∈ registry →
    runMatching pm action registry st = runOne pm action runner st
  | [], st, _, hmem => by cases hmem
  | (runnerName, r) :: rest, st, hnd, hmem => by
    simp only [List.map_cons, List.nodup_cons, List.mem_map, not_exists, not_and] at hnd
    by_cases hname : action.Name = runnerName
    · have hrest : ∀ e ∈ rest, e.1 ≠ action.Name := fun e he heq =>
        hnd.1 e he (heq.trans hname)
      have hhead : r = runner := by
        rcases List.mem_cons.1 hmem with h1 | h1
        · exact (Prod.mk.inj h1).2.symm
        · exact absurd rfl (hrest _ h1)
      subst hhead
      rw [runMatching, if_pos hname]
      simp only [runOne, ← hname]
      cases herr : (r.Run (newRunner pm action action.Name) st.world).err with
      | none => simp only [runMatching_no_match pm action rest _ hrest]
      | some err =>
        cases hcoe : (r.Run (newRunner pm action action.Name) st.world).ContinueOnError with
        | false => simp
        | true => simp [runMatching_no_match pm action rest _ hrest]
    · have hmem2 : (action.Name, runner) ∈ rest := by
        rcases List.mem_cons.1 hmem with h1 | h1
        · exact absurd (Prod.mk.inj h1).1 hname
        · exact h1
      rw [runMatching, if_neg hname]
      exact runMatching_unique pm action runner rest st hnd.2 hmem2

theorem runActionsFrom_append {σ : Type} (pm : PluginManager)
    (registry : List (String × ActionRunner σ)) :
    ∀ (pre rest : List Action) (st0 st1 : DispatchState σ),
    runActionsFrom pm registry pre st0 = (st1, none) →
    runActionsFrom pm registry (pre ++ rest) st0 = runActionsFrom pm registry rest st1
  | [], rest, st0, st1, h => by
    simp only [runActionsFrom, Prod.mk.injEq, and_true] at h
    rw [List.nil_append, h]
  | a :: pre, rest, st0, st1, h => by
    rw [runActionsFrom] at h
    rw [List.cons_append, runActionsFrom]
    cases hm : runMatching pm a registry st0 with
    | mk st' e =>
      rw [hm] at h
      cases e with
      | some err => cases h
      | none => exact runActionsFrom_append pm registry pre rest st' st1 h
/-! ## Action dispatcher: the claims -/

/-- Let an action `a` be reached by the dispatch loop (the actions before it
did not stop the run) and let the runner registered under its name return an
error `err` from `Run`. If the instance that ran has `ContinueOnError` false
once `Run` has returned, `RunActions` returns the error
`error running <name>: <err>` in the state that `Run` left, with no later
action dispatched. If it has `ContinueOnError` true, `RunActions` goes on to
dispatch the remaining actions, in order, from that state. The flag is the one
of the new instance, not the one of the registered value. The registry is a Go
map: its keys are distinct. -/
theorem runner_error_stops_unless_instance_continues {σ : Type} (pm : PluginManager)
    (registry : List (String × ActionRunner σ)) (pre : List Action) (a : Action)
    (post : List Action) (runner : ActionRunner σ) (st0 st1 : DispatchState σ) (err : String)
    (hreg : (registry.map Prod.fst).Nodup)
    (hact : pm.Actions = pre ++ a :: post)
    (hpre : runActionsFrom pm registry pre st0 = (st1, none))
    (hmem : (a.Name, runner) ∈ registry)
    (herr : (runner.Run (newRunner pm a a.Name) st1.world).err = some err) :
    ((runner.Run (newRunner pm a a.Name) st1.world).ContinueOnError = false →
      RunActions pm registry st0 =
        ({ world := (runner.Run (newRunner pm a a.Name) st1.world).world
           log := st1.log ++ ["Running " ++ a.Name] },
          some ("error running " ++ a.Name ++ ": " ++ err))) ∧
    ((runner.Run (newRunner pm a a.Name) st1.world).ContinueOnError = true →
      RunActions pm registry st0 =
        runActionsFrom pm registry post
          { world := (runner.Run (newRunner pm a a.Name) st1.world).world
            log := st1.log ++ ["Running " ++ a.Name, "Completed " ++ a.Name] }) := by
  have hstep : RunActions pm registry st0 = runActionsFrom pm registry (a :: post) st1 := by
    rw [RunActions, hact]
    exact runActionsFrom_append pm registry pre (a :: post) st0 st1 hpre
  have hone := runMatching_unique pm a runner registry st1 hreg hmem
  constructor
  · intro hcoe
    rw [hstep, runActionsFrom, hone]
    simp [runOne, herr, hcoe]
  · intro hcoe
    rw [hstep, runActionsFrom, hone]
    simp [runOne, herr, hcoe]

theorem runner_error_stops_unless_instance_continues_example :
    RunActions (pmWithActions [actionNamed "fail", actionNamed "ok"]) testRegistry
        { world := [], log := [] } =
      ({ world := ["fail"], log := ["Running fail"] }, some "error running fail: boom") ∧
    RunActions (pmWithActions [actionNamed "tolerant", actionNamed "ok"]) testRegistry
        { world := [], log := [] } =
      ({ world := ["tolerant", "ok"]
         log := ["Running tolerant", "Completed tolerant", "Running ok", "Completed ok"] },
        none) :=
  ⟨(runner_error_stops_unless_instance_continues
      (pmWithActions [actionNamed "fail", actionNamed "ok"]) testRegistry []
      (actionNamed "fail") [actionNamed "ok"] failingRunner { world := [], log := [] }
      { world := [], log := [] } "boom" (by decide) rfl rfl
      (List.mem_cons_self _ _) rfl).1 rfl,
    ((runner_error_stops_unless_instance_continues
      (pmWithActions [actionNamed "tolerant", actionNamed "ok"]) testRegistry []
      (actionNamed "tolerant") [actionNamed "ok"] tolerantRunner { world := [], log := [] }
      { world := [], log := [] } "boom" (by decide) rfl rfl
      (List.mem_cons_of_mem _ (List.mem_cons_self _ _)) rfl).2 rfl).trans rfl⟩

theorem runMatching_ignores_registered {σ : Type} (pm : PluginManager) (action : Action)
    (f : ActionRunnerBase → ActionRunnerBase) :
    ∀ (registry : List (String × ActionRunner σ)) (st : DispatchState σ),
    runMatching pm action
        (registry.map (fun e => (e.1, { e.2 with registered := f e.2.registered }))) st =
      runMatching pm action registry st
  | [], _ => rfl
  | (runnerName, runner) :: rest, st => by
    simp only [List.map_cons, runMatching,
      runMatching_ignores_registered pm action f rest]

/-- The registered values are not read: `RunActions` gives the same result when
they are replaced by any others, the `Run` methods being the same. -/
theorem RunActions_ignores_registered {σ : Type} (pm : PluginManager)
    (f : ActionRunnerBase → ActionRunnerBase) (registry : List (String × ActionRunner σ))
    (st : DispatchState σ) :
    RunActions pm
        (registry.map (fun e => (e.1, { e.2 with registered := f e.2.registered }))) st =
      RunActions pm registry st := by
  unfold RunActions
  generalize pm.Actions = actions
  induction actions generalizing st with
  | nil => rfl
  | cons a rest ih =>
    rw [runActionsFrom, runActionsFrom, runMatching_ignores_registered]
    cases hm : runMatching pm a registry st with
    | mk st1 e =>
      cases e with
      | some err => rfl
      | none => exact ih st1

/-- C10 (defect of the code). The runner `lenient` is registered with
`ContinueOnError` true and its `Run` fails with `boom` without assigning the
field. `RunActions` runs it on a new instance, whose `ContinueOnError` is
false, and stops: it returns `error running lenient: boom`, and the runner of
the next action, `ok`, is not called. -/
theorem C10_registered_continue_flag_is_not_read :
    lenientRunner.registered.ContinueOnError = true ∧
    RunActions (pmWithActions [actionNamed "lenient", actionNamed "ok"]) lenientRegistry
        { world := [], log := [] } =
      ({ world := ["lenient"], log := ["Running lenient"] },
        some "error running lenient: boom") :=
  ⟨rfl, rfl⟩

/-! ## Action dispatcher: dropped errors and unmatched actions -/

theorem runMatching_tolerant {σ : Type} (pm : PluginManager) (action : Action) :
    ∀ (registry : List (String × ActionRunner σ)) (st : DispatchState σ),
    (∀ e ∈ registry, ∀ inst w,
      (e.2.Run inst w).err = none ∨ (e.2.Run inst w).ContinueOnError = true) →
    (runMatching pm action registry st).2 = none ∧
    (∀ x ∈ st.log, x ∈ (runMatching pm action registry st).1.log) ∧
    ((∃ e ∈ registry, e.1 = action.Name) →
      "Completed " ++ action.Name ∈ (runMatching pm action registry st).1.log)
  | [], st, _ => ⟨rfl, fun _ hx => hx, fun ⟨_, he, _⟩ => by cases he⟩
  | (runnerName, runner) :: rest, st, h => by
    have hrest : ∀ e ∈ rest, ∀ inst w,
        (e.2.Run inst w).err = none ∨ (e.2.Run inst w).ContinueOnError = true :=
      fun e he => h e (List.mem_cons_of_mem _ he)
    have hhead := h (runnerName, runner) (List.mem_cons_self _ _)
      (newRunner pm action runnerName) st.world
    by_cases hname : action.Name = runnerName
    · have hnext : ∀ st2 : DispatchState σ,
          st2.log = st.log ++ ["Running " ++ action.Name, "Completed " ++ action.Name] →
          (runMatching pm action rest st2).2 = none ∧
          (∀ x ∈ st.log, x ∈ (runMatching pm action rest st2).1.log) ∧
          ((∃ e ∈ (runnerName, runner) :: rest, e.1 = action.Name) →
            "Completed " ++ action.Name ∈ (runMatching pm action rest st2).1.log) := by
        intro st2 hlog
        obtain ⟨h1, h2, -⟩ := runMatching_tolerant pm action rest st2 hrest
        refine ⟨h1, fun x hx => h2 x (by rw [hlog]; simp [hx]), fun _ => h2 _ ?_⟩
        rw [hlog]; simp
      rw [runMatching, if_pos hname]
      simp only
      cases herr : (runner.Run (newRunner pm action runnerName) st.world).err with
      | none => exact hnext _ rfl
      | some err =>
        have hcoe : (runner.Run (newRunner pm action runnerName) st.world).ContinueOnError =
            true := by
          rcases hhead with h1 | h1
          · rw [herr] at h1; cases h1
          · exact h1
        simp only [hcoe, Bool.not_true, Bool.false_eq_true, if_false]
        exact hnext _ rfl
    · rw [runMatching, if_neg hname]
      obtain ⟨h1, h2, h3⟩ := runMatching_tolerant pm action rest st hrest
      refine ⟨h1, h2, ?_⟩
      rintro ⟨e, he, hen⟩
      rcases List.mem_cons.1 he with h4 | h4
      · subst h4; exact absurd hen.symm hname
      · exact h3 ⟨e, h4, hen⟩

theorem runActionsFrom_tolerant {σ : Type} (pm : PluginManager)
    (registry : List (String × ActionRunner σ))
    (h : ∀ e ∈ registry, ∀ inst w,
      (e.2.Run inst w).err = none ∨ (e.2.Run inst w).ContinueOnError = true) :
    ∀ (actions : List Action) (st : DispatchState σ),
    (runActionsFrom pm registry actions st).2 = none ∧
    (∀ x ∈ st.log, x ∈ (runActionsFrom pm registry actions st).1.log) ∧
    (∀ a ∈ actions, (∃ e ∈ registry, e.1 = a.Name) →
      "Completed " ++ a.Name ∈ (runActionsFrom pm registry actions st).1.log)
  | [], st => ⟨rfl, fun _ hx => hx, fun _ ha => by cases ha⟩
  | action :: rest, st => by
    obtain ⟨h1, h2, h3⟩ := runMatching_tolerant pm action registry st h
    rw [runActionsFrom]
    cases hm : runMatching pm action registry st with
    | mk st1 e =>
      rw [hm] at h1 h2 h3
      simp only at h1 h2 h3
      subst h1
      obtain ⟨r1, r2, r3⟩ := runActionsFrom_tolerant pm registry h rest st1
      refine ⟨r1, fun x hx => r2 x (h2 x hx), ?_⟩
      intro a ha hreg
      rcases List.mem_cons.1 ha with h4 | h4
      · subst h4; exact r2 _ (h3 hreg)
      · exact r3 a h4 hreg

/-- C11 (the claim fails as stated). The runner `tolerant` fails with `boom`
and has `ContinueOnError` true, the action after it succeeds, both are run, and
`RunActions` returns nil. -/
theorem C11_continued_error_is_not_reported :
    (tolerantRunner.Run
      (newRunner (pmWithActions [actionNamed "tolerant", actionNamed "ok"])
        (actionNamed "tolerant") "tolerant") []).err = some "boom" ∧
    (tolerantRunner.Run
      (newRunner (pmWithActions [actionNamed "tolerant", actionNamed "ok"])
        (actionNamed "tolerant") "tolerant") []).ContinueOnError = true ∧
    (RunActions (pmWithActions [actionNamed "tolerant", actionNamed "ok"]) testRegistry
      { world := [], log := [] }).1.world = ["tolerant", "ok"] ∧
    (RunActions (pmWithActions [actionNamed "tolerant", actionNamed "ok"]) testRegistry
      { world := [], log := [] }).2 = none :=
  ⟨rfl, rfl, rfl, rfl⟩

theorem mapGet_some_mem {β : Type} : ∀ (m : List (String × β)) (key : String) (v : β),
    mapGet m key = some v → (key, v) ∈ m
  | [], _, _, h => by cases h
  | (k, x) :: rest, key, v, h => by
    rw [mapGet] at h
    split at h
    · rename_i hk
      cases h
      rw [hk]
      exact List.mem_cons_self _ _
    · exact List.mem_cons_of_mem _ (mapGet_some_mem rest key v h)

theorem mapGet_none_ne {β : Type} : ∀ (m : List (String × β)) (key : String),
    mapGet m key = none → ∀ e ∈ m, e.1 ≠ key
  | [], _, _, e, he => by cases he
  | (k, x) :: rest, key, h, e, he => by
    rw [mapGet] at h
    split at h
    · cases h
    · rename_i hk
      rcases List.mem_cons.1 he with h1 | h1
      · subst h1; exact hk
      · exact mapGet_none_ne rest key h e h1

theorem runActionsFrom_only_continued {σ : Type} (pm : PluginManager)
    (registry : List (String × ActionRunner σ)) (hreg : (registry.map Prod.fst).Nodup) :
    ∀ (actions : List Action) (st : DispatchState σ),
    onlyContinuedFailures pm registry actions st →
    runActionsFrom pm registry actions st = (runEvery pm registry actions st, none)
  | [], st, _ => rfl
  | a :: rest, st, h => by
    rw [onlyContinuedFailures] at h
    rw [runActionsFrom, runEvery]
    cases hget : mapGet registry a.Name with
    | none =>
      rw [hget] at h
      rw [runMatching_no_match pm a registry st (mapGet_none_ne registry a.Name hget)]
      exact runActionsFrom_only_continued pm registry hreg rest st h
    | some runner =>
      rw [hget] at h
      obtain ⟨hcall, hrest⟩ := h
      have ih := runActionsFrom_only_continued pm registry hreg rest _ hrest
      rw [runMatching_unique pm a runner registry st hreg (mapGet_some_mem registry a.Name _ hget)]
      unfold runOne
      cases herr : (runner.Run (newRunner pm a a.Name) st.world).err with
      | none => exact ih
      | some err =>
        have hcoe : (runner.Run (newRunner pm a a.Name) st.world).ContinueOnError = true := by
          rcases hcall with h1 | h1
          · rw [herr] at h1; cases h1
          · exact h1
        simp only [hcoe, Bool.not_true, Bool.false_eq_true, if_false]
        exact ih

/-- C11 (amended). When the only failing calls of `Run` in a run are on
instances that have `ContinueOnError` true once `Run` has returned (`Run` has
set the field: the flag of the registered value is not read), in particular
when one such runner fails and every other action succeeds, the runner of
every action that has one is still called, in order, and `RunActions` returns
nil at the end of the run, in the state these calls leave: the failure is
lost, not reported. The registry is a Go map: its keys are distinct. -/
theorem C11_continued_failure_is_lost {σ : Type} (pm : PluginManager)
    (registry : List (String × ActionRunner σ)) (st : DispatchState σ)
    (hreg : (registry.map Prod.fst).Nodup)
    (h : onlyContinuedFailures pm registry pm.Actions st) :
    RunActions pm registry st = (runEvery pm registry pm.Actions st, none) :=
  runActionsFrom_only_continued pm registry hreg pm.Actions st h

theorem C11_continued_failure_is_lost_witness :
    RunActions (pmWithActions [actionNamed "tolerant", actionNamed "ok"]) testRegistry
        { world := [], log := [] } =
      ({ world := ["tolerant", "ok"]
         log := ["Running tolerant", "Completed tolerant", "Running ok", "Completed ok"] },
        none) :=
  C11_continued_failure_is_lost (pmWithActions [actionNamed "tolerant", actionNamed "ok"])
    testRegistry { world := [], log := [] } (by decide) ⟨Or.inr rfl, Or.inl rfl, trivial⟩

/-- C12. An action whose name is the identifier of no registered runner leaves
the dispatch state as it was (no `Run` is called, nothing is logged) and gives
no error, so the loop goes on with the next action; when no action name is a
registered identifier, `RunActions` returns nil in the state it started in. -/
theorem C12_unmatched_action_is_skipped {σ : Type} (pm : PluginManager)
    (registry : List (String × ActionRunner σ)) (st : DispatchState σ) :
    (∀ a : Action, (∀ e ∈ registry, e.1 ≠ a.Name) →
      runMatching pm a registry st = (st, none) ∧
      ∀ rest, runActionsFrom pm registry (a :: rest) st =
        runActionsFrom pm registry rest st) ∧
    ((∀ a ∈ pm.Actions, ∀ e ∈ registry, e.1 ≠ a.Name) →
      RunActions pm registry st = (st, none)) := by
  constructor
  · intro a ha
    have hm := runMatching_no_match pm a registry st ha
    refine ⟨hm, fun rest => ?_⟩
    rw [runActionsFrom, hm]
  · intro hall
    unfold RunActions
    generalize pm.Actions = actions at hall
    induction actions with
    | nil => rfl
    | cons a rest ih =>
      rw [runActionsFrom, runMatching_no_match pm a registry st
        (hall a (List.mem_cons_self _ _))]
      exact ih (fun b hb => hall b (List.mem_cons_of_mem _ hb))

theorem C12_unmatched_action_is_skipped_witness :
    RunActions (pmWithActions [actionNamed "absent", actionNamed "other"]) testRegistry
      { world := [], log := [] } = ({ world := [], log := [] }, none) :=
  (C12_unmatched_action_is_skipped
    (pmWithActions [actionNamed "absent", actionNamed "other"]) testRegistry
    { world := [], log := [] }).2 (by decide)

/-! ## I/O operations: lemmas -/

theorem GetStore_not_found (im : IOManager) (name : String)
    (h : ∀ n ∈ im.chain, ∀ s ∈ n.Stores, s.Name ≠ name) :
    GetStore im name = .error ("invalid store name: " ++ name) := by
  obtain ⟨e, he⟩ := (GetStore_error_iff im name).2 h
  rw [he, GetStore_error_msg im name e he]

theorem GetDataSource_not_found (im : IOManager) (kind : DataSourceIoType) (name : String)
    (h : ∀ n ∈ im.chain, ∀ d ∈ selectSources n kind, d.Name ≠ name) :
    GetDataSource im ⟨kind, name⟩ = .error ("data source " ++ name ++ " not found") := by
  obtain ⟨e, he⟩ := (GetDataSource_error_iff im ⟨kind, name⟩).2 h
  rw [he, GetDataSource_error_msg im ⟨kind, name⟩ e he]

theorem selectSources_input (n : IOManager) : selectSources n DataSourceInput = n.Inputs := by
  simp [selectSources]

theorem selectSources_output (n : IOManager) : selectSources n DataSourceOutput = n.Outputs := by
  simp [selectSources, DataSourceInput, DataSourceOutput]

theorem selectSources_all (n : IOManager) :
    selectSources n DataSourceAll = n.Inputs ++ n.Outputs := by
  simp [selectSources, DataSourceInput, DataSourceOutput, DataSourceAll]

theorem GetInputDataSource_not_found (im : IOManager) (name : String)
    (h : ∀ n ∈ im.chain, ∀ d ∈ n.Inputs, d.Name ≠ name) :
    GetInputDataSource im name = .error ("data source " ++ name ++ " not found") :=
  GetDataSource_not_found im DataSourceInput name
    (fun n hn d hd => h n hn d (by rw [← selectSources_input n]; exact hd))

theorem GetOutputDataSource_not_found (im : IOManager) (name : String)
    (h : ∀ n ∈ im.chain, ∀ d ∈ n.Outputs, d.Name ≠ name) :
    GetOutputDataSource im name = .error ("data source " ++ name ++ " not found") :=
  GetDataSource_not_found im DataSourceOutput name
    (fun n hn d hd => h n hn d (by rw [← selectSources_output n]; exact hd))

theorem opPath_eq (path : String) (templateVars : List (String × String)) :
    opPath path templateVars = templateVarSubstitution path templateVars := by
  unfold opPath
  split
  · rfl
  · exact (templateVarSubstitution_same path templateVars).symm

theorem GetReader_of_source {σ : Type} (be : Backend σ) (im : IOManager)
    (input : DataSourceOpInput) (w : σ) (ds : DataSource) (store : DataStore)
    (hds : readerSource im input = .ok ds) (hst : GetStore im ds.StoreName = .ok store) :
    (∀ h, asStoreReader store.Session = some h →
      GetReader be im input w =
        be.Get h (opPath (mapIndex ds.Paths input.PathKey) input.TemplateVars)
          (if input.DataPathKey ≠ "" then mapIndex ds.DataPaths input.DataPathKey else "") w) ∧
    (asStoreReader store.Session = none →
      GetReader be im input w =
        (.error ("data store " ++ store.Name ++ " session does not implement a StoreReader"),
          w)) := by
  constructor
  · intro h hh
    simp only [GetReader, hds, hst, hh]
  · intro hh
    simp only [GetReader, hds, hst, hh]

/-- For a data source and store that resolve and a session that can be read, a
path key that is not in `Paths` makes `GetReader` call the read entrypoint with
the empty path. -/
theorem GetReader_missing_key {σ : Type} (be : Backend σ) (im : IOManager)
    (input : DataSourceOpInput) (w : σ) (ds : DataSource) (store : DataStore) (h : Nat)
    (hds : readerSource im input = .ok ds) (hst : GetStore im ds.StoreName = .ok store)
    (hh : asStoreReader store.Session = some h) (hkey : mapGet ds.Paths input.PathKey = none) :
    GetReader be im input w =
      be.Get h ""
        (if input.DataPathKey ≠ "" then mapIndex ds.DataPaths input.DataPathKey else "") w := by
  rw [(GetReader_of_source be im input w ds store hds hst).1 h hh, opPath_eq,
    templateVarSubstitution_same]
  simp [mapIndex, hkey]

/-- When the store resolves, the local path exists and the session of the store
is not a file store, `CopyFileToRemote` returns nil and touches no file. -/
theorem CopyFileToRemote_not_file_store {σ : Type} (host : FileHost σ) (im : IOManager)
    (input : CopyFileToRemoteInput) (w : σ) (storeName path : String) (store : DataStore)
    (isDir : Bool) (ht : remoteTarget im input = .ok (storeName, path))
    (hst : GetStore im storeName = .ok store) (hstat : host.Stat input.LocalPath w = .ok isDir)
    (hcap : asFileDataStore store.Session = none) :
    CopyFileToRemote host im input w = (none, w) := by
  simp only [CopyFileToRemote, ht, hst, hstat, hcap]
/-! ## I/O operations: the claims -/

/-- C13 (defect of the code). The input `grid` and its store `src` resolve and
the session of `src` can be read, but the path key `missing` is not in the
`Paths` of `grid`: `GetReader` and `Get` do not fail, they call the read
entrypoint with the empty path and return what it returns. -/
theorem C13_missing_path_key_is_read :
    mapGet (sourceNamed "grid" "src" "in/grid.tif").Paths "missing" = none ∧
    GetReader recordingBackend ioScope (opNamed "grid" "missing") [] =
      (.ok { content := [1, 2, 3] }, [.get 1 "" ""]) ∧
    Get recordingBackend ioScope (opNamed "grid" "missing") [] =
      (.ok [1, 2, 3], [.get 1 "" ""]) :=
  ⟨rfl, rfl, rfl⟩

/-- C14. `GetReader` with a data source given uses it as it is: the result
does not depend on `DataSourceName`, and store, capability and paths are those
of the given value. With none given, the name is looked up among the inputs of
the scope chain only: a name that no scope has among its inputs fails with
`data source <name> not found`, whatever the outputs declare. In both cases a
resolved store whose session cannot be read gives the error
`data store <store name> session does not implement a StoreReader`. -/
theorem C14_GetReader_source_resolution {σ : Type} (be : Backend σ) (im : IOManager)
    (input : DataSourceOpInput) (w : σ) :
    (∀ ds, input.DataSource = some ds →
      (∀ name, GetReader be im { input with DataSourceName := name } w =
        GetReader be im input w) ∧
      ∀ store, GetStore im ds.StoreName = .ok store →
        (∀ h, asStoreReader store.Session = some h →
          GetReader be im input w =
            be.Get h (opPath (mapIndex ds.Paths input.PathKey) input.TemplateVars)
              (if input.DataPathKey ≠ "" then mapIndex ds.DataPaths input.DataPathKey
                else "") w) ∧
        (asStoreReader store.Session = none →
          GetReader be im input w =
            (.error ("data store " ++ store.Name ++
              " session does not implement a StoreReader"), w))) ∧
    (input.DataSource = none →
      ((∀ n ∈ im.chain, ∀ d ∈ n.Inputs, d.Name ≠ input.DataSourceName) →
        GetReader be im input w =
          (.error ("data source " ++ input.DataSourceName ++ " not found"), w)) ∧
      ∀ ds store, GetDataSource im ⟨DataSourceInput, input.DataSourceName⟩ = .ok ds →
        GetStore im ds.StoreName = .ok store →
        (∀ h, asStoreReader store.Session = some h →
          GetReader be im input w =
            be.Get h (opPath (mapIndex ds.Paths input.PathKey) input.TemplateVars)
              (if input.DataPathKey ≠ "" then mapIndex ds.DataPaths input.DataPathKey
                else "") w) ∧
        (asStoreReader store.Session = none →
          GetReader be im input w =
            (.error ("data store " ++ store.Name ++
              " session does not implement a StoreReader"), w))) := by
  constructor
  · intro ds hds
    refine ⟨fun name => ?_, fun store hst => ?_⟩
    · simp only [GetReader, readerSource, hds]
    · exact GetReader_of_source be im input w ds store (by simp [readerSource, hds]) hst
  · intro hnil
    refine ⟨fun hall => ?_, fun ds store hds hst => ?_⟩
    · simp only [GetReader, readerSource, hnil,
        GetInputDataSource_not_found im input.DataSourceName hall]
    · exact GetReader_of_source be im input w ds store
        (by simp only [readerSource, hnil, GetInputDataSource, hds]) hst

theorem C14_GetReader_source_resolution_witness :
    GetReader recordingBackend ioScope (opNamed "result" "default") [] =
      (.error "data source result not found", []) ∧
    GetReader recordingBackend ioScope
        { DataSource := some (sourceNamed "anything" "dst" "x"), DataSourceName := "grid",
          PathKey := "default", DataPathKey := "", TemplateVars := [] } [] =
      (.error "data store dst session does not implement a StoreReader", []) :=
  ⟨((C14_GetReader_source_resolution recordingBackend ioScope
      (opNamed "result" "default") []).2 rfl).1 (by decide),
    (((C14_GetReader_source_resolution recordingBackend ioScope
      { DataSource := some (sourceNamed "anything" "dst" "x"), DataSourceName := "grid",
        PathKey := "default", DataPathKey := "", TemplateVars := [] } []).1
      (sourceNamed "anything" "dst" "x") rfl).2
      { Name := "dst", StoreType := "S3", Parameters := [], Session := some writeSession }
      rfl).2 rfl⟩

/-- `Put` with no data source given returns 0 and an error, leaving the
storage as it was, when the name is among the outputs of no scope of the chain,
when the store of the output does not resolve, when the session of the store
cannot be written, when `PathKey` is not in `Paths`, and when a non-empty
`DataPathKey` is not in `DataPaths`; in every other case it returns what the
write entrypoint returns for the given reader, the path entry as it is stored
(no VAR token is replaced, whatever `TemplateVars` holds) and the data path
(empty for an empty `DataPathKey`). -/
theorem Put_failures_and_result {σ : Type} (be : Backend σ) (im : IOManager)
    (input : PutOpInput) (w : σ) (hnil : input.op.DataSource = none) :
    ((∀ n ∈ im.chain, ∀ d ∈ n.Outputs, d.Name ≠ input.op.DataSourceName) →
      Put be im input w =
        ((0, some ("data source " ++ input.op.DataSourceName ++ " not found")), w)) ∧
    ∀ ds, GetDataSource im ⟨DataSourceOutput, input.op.DataSourceName⟩ = .ok ds →
      ((∀ n ∈ im.chain, ∀ s ∈ n.Stores, s.Name ≠ ds.StoreName) →
        Put be im input w = ((0, some ("invalid store name: " ++ ds.StoreName)), w)) ∧
      ∀ store, GetStore im ds.StoreName = .ok store →
        (asStoreWriter store.Session = none →
          Put be im input w =
            ((0, some ("data store " ++ ds.StoreName ++
              " session does not implement a storewriter")), w)) ∧
        ∀ writer, asStoreWriter store.Session = some writer →
          (mapGet ds.Paths input.op.PathKey = none →
            Put be im input w =
              ((0, some ("data source path " ++ input.op.PathKey ++ " not found")), w)) ∧
          ∀ path, mapGet ds.Paths input.op.PathKey = some path →
            (input.op.DataPathKey ≠ "" →
              mapGet ds.DataPaths input.op.DataPathKey = none →
              Put be im input w =
                ((0, some ("expected data source data path " ++ input.op.DataPathKey ++
                  " not found")), w)) ∧
            (input.op.DataPathKey ≠ "" → ∀ datapath,
              mapGet ds.DataPaths input.op.DataPathKey = some datapath →
              Put be im input w = be.Put writer input.SrcReader path datapath w) ∧
            (input.op.DataPathKey = "" →
              Put be im input w = be.Put writer input.SrcReader path "" w) := by
  constructor
  · intro hall
    simp only [Put, putSource, hnil,
      GetOutputDataSource_not_found im input.op.DataSourceName hall]
  · intro ds hds
    have hsrc : putSource im input.op = .ok ds := by
      simp only [putSource, hnil, GetOutputDataSource, hds]
    constructor
    · intro hall
      simp only [Put, hsrc, GetStore_not_found im ds.StoreName hall]
    · intro store hst
      constructor
      · intro hcap
        simp only [Put, hsrc, hst, hcap]
      · intro writer hcap
        constructor
        · intro hkey
          simp only [Put, hsrc, hst, hcap, hkey]
        · intro path hkey
          refine ⟨fun hne hdp => ?_, fun hne datapath hdp => ?_, fun he => ?_⟩
          · simp only [Put, hsrc, hst, hcap, hkey, hdp, if_pos hne]
          · simp only [Put, hsrc, hst, hcap, hkey, hdp, if_pos hne, opPath_eq,
              templateVarSubstitution_same]
          · have hn : ¬ input.op.DataPathKey ≠ "" := fun h => h he
            simp only [Put, hsrc, hst, hcap, hkey, if_neg hn, opPath_eq,
              templateVarSubstitution_same]

theorem Put_failures_and_result_example :
    Put recordingBackend ioScope
        { SrcReader := { content := [9, 9] }, op := opNamed "grid" "default" } [] =
      ((0, some "data source grid not found"), []) ∧
    Put recordingBackend ioScope
        { SrcReader := { content := [9, 9] }, op := opNamed "result" "default" } [] =
      ((2, none), [.put 2 [9, 9] "out/result.tif" ""]) :=
  ⟨(Put_failures_and_result recordingBackend ioScope
      { SrcReader := { content := [9, 9] }, op := opNamed "grid" "default" } [] rfl).1
      (by decide),
    ((((((Put_failures_and_result recordingBackend ioScope
      { SrcReader := { content := [9, 9] }, op := opNamed "result" "default" } [] rfl).2
      (sourceNamed "result" "dst" "out/result.tif") rfl).2
      { Name := "dst", StoreType := "S3", Parameters := [], Session := some writeSession }
      rfl).2 2 rfl).2 "out/result.tif" rfl).2.2 rfl).trans rfl⟩

/-- C15 (defect of the code). The output `tile` and its store `dst` resolve,
the session of `dst` can be written, the path of `tile` is
`out/{VAR::id}.tif` and the caller supplies `id = 7`: `Put` calls the write
entrypoint with the path `out/{VAR::id}.tif`, the token still in it, not with
the VAR-substituted path `out/7.tif`. -/
theorem C15_Put_path_is_not_substituted :
    mapGet putTile.op.TemplateVars "id" = some "7" ∧
    Put recordingBackend ioVarScope putTile [] =
      ((2, none), [.put 2 [9, 9] "out/\x7bVAR::id\x7d.tif" ""]) :=
  ⟨rfl, rfl⟩

/-- C16. When the source and destination outputs and their stores resolve and
the session of the source store cannot be read, `Copy` returns the error
`source data store <source store name> session does not implement a
storereader` and leaves the storage as it was: no entrypoint is called. -/
theorem C16_Copy_source_not_readable {σ : Type} (be : Backend σ) (im : IOManager)
    (src dest : DataSourceOpInput) (w : σ) (srcds destds : DataSource)
    (srcstore deststore : DataStore)
    (hsrc : GetDataSource im ⟨DataSourceOutput, src.DataSourceName⟩ = .ok srcds)
    (hsrcstore : GetStore im srcds.StoreName = .ok srcstore)
    (hdest : GetDataSource im ⟨DataSourceOutput, dest.DataSourceName⟩ = .ok destds)
    (hdeststore : GetStore im destds.StoreName = .ok deststore)
    (hcap : asStoreReader srcstore.Session = none) :
    Copy be im src dest w =
      (some ("source data store " ++ srcstore.Name ++
        " session does not implement a storereader"), w) := by
  simp only [Copy, GetOutputDataSource, hsrc, hsrcstore, hdest, hdeststore, hcap]

theorem C16_Copy_source_not_readable_witness :
    Copy recordingBackend ioScope (opNamed "result" "default") (opNamed "result" "default") [] =
      (some "source data store dst session does not implement a storereader", []) :=
  C16_Copy_source_not_readable recordingBackend ioScope (opNamed "result" "default")
    (opNamed "result" "default") [] (sourceNamed "result" "dst" "out/result.tif")
    (sourceNamed "result" "dst" "out/result.tif")
    { Name := "dst", StoreType := "S3", Parameters := [], Session := some writeSession }
    { Name := "dst", StoreType := "S3", Parameters := [], Session := some writeSession }
    rfl rfl rfl rfl rfl

/-- C17 (defect of the code). The output `raw` is on the store `src`, which
can be read, and the output `dump` on the store `bare`, which cannot be
written: `Copy` fails, and its message
`destination data store src session does not implement a storewriter` carries
the name of the source store, not `bare`. No entrypoint is called. -/
theorem C17_Copy_names_the_source_store :
    GetStore ioScope "bare" = .ok (storeNamed "bare" "FS") ∧
    asStoreWriter (storeNamed "bare" "FS").Session = none ∧
    Copy recordingBackend ioScope (opNamed "raw" "default") (opNamed "dump" "default") [] =
      (some "destination data store src session does not implement a storewriter", []) :=
  ⟨rfl, rfl, rfl⟩

/-- C18. `Copy` looks up both names among the outputs of the scope chain. A
source name that no scope has among its outputs, whatever the inputs declare,
makes it return `data source <name> not found` with the storage as it was; and
when the source output and its store resolve, the same holds for a destination
name that no scope has among its outputs. -/
theorem C18_Copy_resolves_outputs_only {σ : Type} (be : Backend σ) (im : IOManager)
    (src dest : DataSourceOpInput) (w : σ) :
    ((∀ n ∈ im.chain, ∀ d ∈ n.Outputs, d.Name ≠ src.DataSourceName) →
      Copy be im src dest w =
        (some ("data source " ++ src.DataSourceName ++ " not found"), w)) ∧
    (∀ srcds srcstore,
      GetDataSource im ⟨DataSourceOutput, src.DataSourceName⟩ = .ok srcds →
      GetStore im srcds.StoreName = .ok srcstore →
      (∀ n ∈ im.chain, ∀ d ∈ n.Outputs, d.Name ≠ dest.DataSourceName) →
      Copy be im src dest w =
        (some ("data source " ++ dest.DataSourceName ++ " not found"), w)) := by
  constructor
  · intro hall
    simp only [Copy, GetOutputDataSource_not_found im src.DataSourceName hall]
  · intro srcds srcstore hsrc hst hall
    simp only [Copy, GetOutputDataSource_not_found im dest.DataSourceName hall]
    simp only [GetOutputDataSource, hsrc, hst]

theorem C18_Copy_resolves_outputs_only_witness :
    (∃ d ∈ ioScope.Inputs, d.Name = "grid") ∧
    Copy recordingBackend ioScope (opNamed "grid" "default") (opNamed "result" "default") [] =
      (some "data source grid not found", []) :=
  ⟨by decide,
    (C18_Copy_resolves_outputs_only recordingBackend ioScope (opNamed "grid" "default")
      (opNamed "result" "default") []).1 (by decide)⟩

/-- C19 (defect of the code). The store `src` resolves, the local path exists
and the session of `src` is not a file store: `CopyFileToRemote` returns nil,
and nothing is written. -/
theorem C19_CopyFileToRemote_returns_nil :
    asFileDataStore readSession = none ∧
    plainHost.Stat "/tmp/result.bin" [] = .ok false ∧
    CopyFileToRemote plainHost ioScope
        { RemoteStoreName := "src", RemotePath := "out", LocalPath := "/tmp/result.bin",
          RemoteDsName := "", DsPathKey := "", DsDataPathKey := "" } [] =
      (none, []) :=
  ⟨rfl, rfl, rfl⟩

/-- C20. `GetAbsolutePath` fails when the store name is declared by no scope
of the chain, when the source name is among neither the inputs nor the outputs
of any scope of the chain, and when the path key is not in the `Paths` of the
source; otherwise it returns, with no error, the cleaned concatenation of the
root of the store, the path separator and the path entry, where the root is the
string parameter `root` of the store and `/` when that is not configured. -/
theorem C20_GetAbsolutePath_result (clean : String → String) (pathSeparator : Char)
    (im : IOManager) (storename sourcename pathname : String) :
    ((∀ n ∈ im.chain, ∀ s ∈ n.Stores, s.Name ≠ storename) →
      GetAbsolutePath clean pathSeparator im storename sourcename pathname =
        .error ("failed to get store: invalid store name: " ++ storename)) ∧
    ((∀ n ∈ im.chain, ∀ d ∈ n.Inputs ++ n.Outputs, d.Name ≠ sourcename) →
      ∃ e, GetAbsolutePath clean pathSeparator im storename sourcename pathname = .error e) ∧
    (∀ store ds, GetStore im storename = .ok store →
      GetDataSource im ⟨DataSourceAll, sourcename⟩ = .ok ds →
      (mapGet ds.Paths pathname = none →
        GetAbsolutePath clean pathSeparator im storename sourcename pathname =
          .error ("invalid path name: " ++ pathname)) ∧
      (∀ path, mapGet ds.Paths pathname = some path →
        GetAbsolutePath clean pathSeparator im storename sourcename pathname =
          .ok (clean (GetStringOrDefault store.Parameters "root" "/" ++
            String.singleton pathSeparator ++ path))) ∧
      (mapGet store.Parameters "root" = none →
        GetStringOrDefault store.Parameters "root" "/" = "/") ∧
      (∀ root, mapGet store.Parameters "root" = some (.str root) →
        GetStringOrDefault store.Parameters "root" "/" = root)) := by
  refine ⟨fun hall => ?_, fun hall => ?_, fun store ds hst hds => ⟨?_, ?_, ?_, ?_⟩⟩
  · simp only [GetAbsolutePath, GetStore_not_found im storename hall]
    rfl
  · have hds := GetDataSource_not_found im DataSourceAll sourcename
      (fun n hn d hd => hall n hn d (by rw [← selectSources_all n]; exact hd))
    cases hst : GetStore im storename with
    | error e =>
      have : GetAbsolutePath clean pathSeparator im storename sourcename pathname =
          .error ("failed to get store: " ++ e) := by
        simp only [GetAbsolutePath, hst]
      exact ⟨_, this⟩
    | ok store =>
      have : GetAbsolutePath clean pathSeparator im storename sourcename pathname =
          .error ("failed to get data source: " ++
            ("data source " ++ sourcename ++ " not found")) := by
        simp only [GetAbsolutePath, hst, hds]
      exact ⟨_, this⟩
  · intro hkey
    simp only [GetAbsolutePath, hst, hds, hkey]
  · intro path hkey
    simp only [GetAbsolutePath, hst, hds, hkey]
  · intro hroot
    simp only [GetStringOrDefault, hroot]
  · intro root hroot
    simp only [GetStringOrDefault, hroot]

theorem C20_GetAbsolutePath_result_witness :
    GetAbsolutePath (fun p => p) '/' ioScope "src" "grid" "default" =
      .ok "/data/in/grid.tif" ∧
    GetAbsolutePath (fun p => p) '/' ioScope "dst" "result" "default" =
      .ok "//out/result.tif" ∧
    GetAbsolutePath (fun p => p) '/' ioScope "src" "grid" "missing" =
      .error "invalid path name: missing" :=
  ⟨((C20_GetAbsolutePath_result (fun p => p) '/' ioScope "src" "grid" "default").2.2
      { Name := "src", StoreType := "S3", Parameters := [("root", .str "/data")],
        Session := some readSession }
      (sourceNamed "grid" "src" "in/grid.tif") rfl rfl).2.1 "in/grid.tif" rfl,
    ((C20_GetAbsolutePath_result (fun p => p) '/' ioScope "dst" "result" "default").2.2
      { Name := "dst", StoreType := "S3", Parameters := [], Session := some writeSession }
      (sourceNamed "result" "dst" "out/result.tif") rfl rfl).2.1 "out/result.tif" rfl,
    ((C20_GetAbsolutePath_result (fun p => p) '/' ioScope "src" "grid" "missing").2.2
      { Name := "src", StoreType := "S3", Parameters := [("root", .str "/data")],
        Session := some readSession }
      (sourceNamed "grid" "src" "in/grid.tif") rfl rfl).1 rfl⟩

/-! ## Store connection and typed lookup: lemmas -/

theorem connectStores_frame {σ : Type} (registry : StoreTypeRegistry σ) :
    ∀ (stores : List DataStore) (w : σ),
    (connectStores registry stores w).1.1.map (fun s => (s.Name, s.StoreType, s.Parameters)) =
      stores.map (fun s => (s.Name, s.StoreType, s.Parameters))
  | [], _ => rfl
  | ds :: rest, w => by
    cases hn : registry.New ds.StoreType with
    | error err => simp only [connectStores, hn]
    | ok newInstance =>
      cases hc : newInstance.Connect with
      | none =>
        simp only [connectStores, hn, hc, List.map_cons, connectStores_frame registry rest w]
      | some connect =>
        cases hr : connect ds w with
        | mk res w1 =>
          cases res with
          | error err => simp only [connectStores, hn, hc, hr]
          | ok conn =>
            simp only [connectStores, hn, hc, hr, List.map_cons,
              connectStores_frame registry rest w1]

theorem connectStores_append {σ : Type} (registry : StoreTypeRegistry σ) :
    ∀ (pre rest pre' : List DataStore) (w w1 : σ),
    connectStores registry pre w = ((pre', none), w1) →
    connectStores registry (pre ++ rest) w =
      ((pre' ++ (connectStores registry rest w1).1.1, (connectStores registry rest w1).1.2),
        (connectStores registry rest w1).2)
  | [], rest, pre', w, w1, h => by
    simp only [connectStores, Prod.mk.injEq, and_true] at h
    rw [← h.1, ← h.2]
    rfl
  | ds :: pre, rest, pre', w, w1, h => by
    cases hn : registry.New ds.StoreType with
    | error err => simp only [connectStores, hn] at h; cases h
    | ok newInstance =>
      cases hc : newInstance.Connect with
      | none =>
        simp only [connectStores, hn, hc, Prod.mk.injEq] at h
        obtain ⟨⟨h1, h2⟩, h3⟩ := h
        have ih := connectStores_append registry pre rest (connectStores registry pre w).1.1
          w w1 (by rw [← h2, ← h3])
        have e : pre.append rest = pre ++ rest := rfl
        simp only [List.cons_append, connectStores, hn, hc, ← h1]
        rw [e, ih]
      | some connect =>
        cases hr : connect ds w with
        | mk res w2 =>
          cases res with
          | error err => simp only [connectStores, hn, hc, hr] at h; cases h
          | ok conn =>
            simp only [connectStores, hn, hc, hr, Prod.mk.injEq] at h
            obtain ⟨⟨h1, h2⟩, h3⟩ := h
            have ih := connectStores_append registry pre rest
              (connectStores registry pre w2).1.1 w2 w1 (by rw [← h2, ← h3])
            have e : pre.append rest = pre ++ rest := rfl
            simp only [List.cons_append, connectStores, hn, hc, hr, ← h1]
            rw [e, ih]

theorem getStoreAsLoop_miss {τ : Type} (assertT : Option Session → Option τ) (name : String) :
    ∀ stores : List DataStore, (∀ s ∈ stores, s.Name ≠ name) →
    getStoreAsLoop assertT name stores = .error ("session " ++ name ++ " does not exist")
  | [], _ => rfl
  | s :: rest, h => by
    rw [getStoreAsLoop, if_neg (h s (List.mem_cons_self _ _))]
    exact getStoreAsLoop_miss assertT name rest (fun x hx => h x (List.mem_cons_of_mem _ hx))

/-- A name that no store of the node declares makes `GetStoreAs` fail, whatever
the parent declares. -/
theorem GetStoreAs_local_miss {τ : Type} (assertT : Option Session → Option τ)
    (mgr : IOManager) (name : String) (h : ∀ s ∈ mgr.Stores, s.Name ≠ name) :
    GetStoreAs assertT mgr name = .error ("session " ++ name ++ " does not exist") :=
  getStoreAsLoop_miss assertT name mgr.Stores h

/-! ## Store connection and typed lookup: the claims -/

/-- C21. `connectStores` is a pass over the stores from left to right. It
leaves the number and order of the stores and the `Name`, `StoreType` and
`Parameters` of every store as they were. When the stores before `ds` were
processed without error: a type of `ds` that the registry does not know, or a
failing `Connect`, ends the pass with that error, and the stores after `ds`
are as they were, with no `Connect` called for them; a successful `Connect`
sets the session of `ds` to the returned one and an instance that is not
connectable leaves `ds` as it was, and the pass goes on with the stores after
`ds`. -/
theorem C21_connectStores_left_to_right {σ : Type} (registry : StoreTypeRegistry σ)
    (pre : List DataStore) (ds : DataStore) (post pre' : List DataStore) (w w1 : σ)
    (hpre : connectStores registry pre w = ((pre', none), w1)) :
    (∀ (stores : List DataStore) (w0 : σ),
      (connectStores registry stores w0).1.1.map
          (fun s => (s.Name, s.StoreType, s.Parameters)) =
        stores.map (fun s => (s.Name, s.StoreType, s.Parameters))) ∧
    (∀ e, registry.New ds.StoreType = .error e →
      connectStores registry (pre ++ ds :: post) w = ((pre' ++ ds :: post, some e), w1)) ∧
    (∀ inst connect, registry.New ds.StoreType = .ok inst → inst.Connect = some connect →
      (∀ e w2, connect ds w1 = (.error e, w2) →
        connectStores registry (pre ++ ds :: post) w =
          ((pre' ++ ds :: post, some e), w2)) ∧
      (∀ conn w2, connect ds w1 = (.ok conn, w2) →
        connectStores registry (pre ++ ds :: post) w =
          ((pre' ++ { ds with Session := conn } :: (connectStores registry post w2).1.1,
              (connectStores registry post w2).1.2),
            (connectStores registry post w2).2))) ∧
    (∀ inst, registry.New ds.StoreType = .ok inst → inst.Connect = none →
      connectStores registry (pre ++ ds :: post) w =
        ((pre' ++ ds :: (connectStores registry post w1).1.1,
            (connectStores registry post w1).1.2),
          (connectStores registry post w1).2)) := by
  have happ := connectStores_append registry pre (ds :: post) pre' w w1 hpre
  refine ⟨connectStores_frame registry, fun e hn => ?_, fun inst connect hn hc => ⟨?_, ?_⟩,
    fun inst hn hc => ?_⟩
  · rw [happ]; simp only [connectStores, hn]
  · intro e w2 hr
    rw [happ]; simp only [connectStores, hn, hc, hr]
  · intro conn w2 hr
    rw [happ]; simp only [connectStores, hn, hc, hr]
  · rw [happ]; simp only [connectStores, hn, hc]

theorem C21_connectStores_left_to_right_witness :
    connectStores testStoreRegistry
        [storeNamed "a" "S3", storeNamed "c" "BAD", storeNamed "d" "S3"] [] =
      (([{ storeNamed "a" "S3" with Session := some readSession }, storeNamed "c" "BAD",
          storeNamed "d" "S3"], some "connection refused"), ["a", "c"]) ∧
    connectStores testStoreRegistry
        [storeNamed "a" "S3", storeNamed "b" "FS", storeNamed "d" "S3"] [] =
      (([{ storeNamed "a" "S3" with Session := some readSession }, storeNamed "b" "FS",
          { storeNamed "d" "S3" with Session := some readSession }], none), ["a", "d"]) :=
  ⟨((C21_connectStores_left_to_right testStoreRegistry [storeNamed "a" "S3"]
      (storeNamed "c" "BAD") [storeNamed "d" "S3"]
      [{ storeNamed "a" "S3" with Session := some readSession }] [] ["a"] rfl).2.2.1
      { Connect := some (fun ds w => (.error "connection refused", w ++ [ds.Name])) }
      (fun ds w => (.error "connection refused", w ++ [ds.Name])) rfl rfl).1
      "connection refused" ["a", "c"] rfl,
    ((C21_connectStores_left_to_right testStoreRegistry [storeNamed "a" "S3"]
      (storeNamed "b" "FS") [storeNamed "d" "S3"]
      [{ storeNamed "a" "S3" with Session := some readSession }] [] ["a"] rfl).2.2.2
      { Connect := none } rfl rfl).trans rfl⟩

/-- C22 (defect of the code). The scope `ioChild` declares no store and its
parent `ioScope` declares the store `src`, whose session can be read:
`GetStore` finds the store through the parent, but `GetStoreAs` with the
reader type returns the error `session src does not exist`. -/
theorem C22_GetStoreAs_skips_the_parent :
    ioChild.parent = some ioScope ∧
    (∀ s ∈ ioChild.Stores, s.Name ≠ "src") ∧
    GetStoreAs asStoreReader ioScope "src" = .ok 1 ∧
    (∃ store, GetStore ioChild "src" = .ok store ∧ asStoreReader store.Session = some 1) ∧
    GetStoreAs asStoreReader ioChild "src" = .error "session src does not exist" :=
  ⟨rfl, by decide, rfl, ⟨_, rfl, rfl⟩, rfl⟩

/-- C23. `Put` with a data source given never uses it: the result is the same
for every given data source and every `DataSourceName`, the storage is left as
it was (the write entrypoint is not called), the number returned is 0, and the
error is that of the empty store name not resolving, of the store of the empty
name not being writable, or of the path key not being found. -/
theorem C23_Put_ignores_explicit_source {σ : Type} (be : Backend σ) (im : IOManager)
    (input : PutOpInput) (w : σ) (ds : DataSource) (hds : input.op.DataSource = some ds) :
    (∀ (ds2 : DataSource) (name : String),
      Put be im { input with op := { input.op with DataSource := some ds2,
                                                    DataSourceName := name } } w =
        Put be im input w) ∧
    (Put be im input w).2 = w ∧
    (Put be im input w).1.1 = 0 ∧
    ((Put be im input w).1.2 = some "invalid store name: " ∨
      (Put be im input w).1.2 =
        some "data store  session does not implement a storewriter" ∨
      (Put be im input w).1.2 =
        some ("data source path " ++ input.op.PathKey ++ " not found")) ∧
    ((∀ n ∈ im.chain, ∀ s ∈ n.Stores, s.Name ≠ "") →
      Put be im input w = ((0, some "invalid store name: "), w)) := by
  have hsrc : putSource im input.op = .ok zeroDataSource := by
    simp only [putSource, hds]
  have hzero : zeroDataSource.StoreName = "" := rfl
  have hpaths : ∀ k, mapGet zeroDataSource.Paths k = none := fun _ => rfl
  refine ⟨fun ds2 name => ?_, ?_, ?_, ?_, ?_⟩
  · simp only [Put, putSource, hds]
  · cases hst : GetStore im zeroDataSource.StoreName with
    | error e => simp only [Put, hsrc, hst]
    | ok store =>
      cases hcap : asStoreWriter store.Session with
      | none => simp only [Put, hsrc, hst, hcap]
      | some writer => simp only [Put, hsrc, hst, hcap, hpaths]
  · cases hst : GetStore im zeroDataSource.StoreName with
    | error e => simp only [Put, hsrc, hst]
    | ok store =>
      cases hcap : asStoreWriter store.Session with
      | none => simp only [Put, hsrc, hst, hcap]
      | some writer => simp only [Put, hsrc, hst, hcap, hpaths]
  · cases hst : GetStore im zeroDataSource.StoreName with
    | error e =>
      left
      have he := GetStore_error_msg im zeroDataSource.StoreName e hst
      simp only [Put, hsrc, hst, he]
      rfl
    | ok store =>
      cases hcap : asStoreWriter store.Session with
      | none =>
        right; left
        simp only [Put, hsrc, hst, hcap]
        rfl
      | some writer =>
        right; right
        simp only [Put, hsrc, hst, hcap, hpaths]
  · intro hall
    have hst : GetStore im zeroDataSource.StoreName = .error ("invalid store name: " ++ "") :=
      GetStore_not_found im "" hall
    simp only [Put, hsrc, hst]
    rfl

theorem C23_Put_ignores_explicit_source_witness :
    Put recordingBackend ioScope
        (putExplicit (sourceNamed "result" "dst" "out/result.tif") "result" "default") [] =
      ((0, some "invalid store name: "), []) :=
  (C23_Put_ignores_explicit_source recordingBackend ioScope
    (putExplicit (sourceNamed "result" "dst" "out/result.tif") "result" "default") []
    (sourceNamed "result" "dst" "out/result.tif") rfl).2.2.2.2 (by decide)

end CC
